import Mathlib

/-!
# cloudtraceai-go: request telemetry interceptor, shutdown, registry and query traces

A shallow embedding of

* `versions/v1/integrations/tracegin/tracegin.go` (the Gin tracker middleware, the
  CPU/memory deltas, `Close` and the signal handler installed by `SetupCleanup`),
* `versions/v1/cloudtrace/register.go` (the service registry loops),
* `versions/v1/integrations/tracepostgres/postgres.go` (`Query` / `Exec` traces).

Conventions of the embedding.

* A Go `error` value is represented by the text its `Error()` method returns; a `nil`
  error is `none`.
* Everything the code asks of the operating system, the clock or the database is an
  explicit field of an environment record (`Env`, `QueryEnv`), one field per call site.
* `float64` values are IEEE 754 binary64 data (`Float64`: NaN, the infinities, signed
  zeros, subnormal and normal numbers), and `+`, `-`, `*`, `/` on them are the correctly
  rounded operations (round to nearest, ties to even). The memory delta is given by its
  exact rational value: the conversion `float64(int64)` rounds to a 53 bit significand,
  and the division of such a value by `1024*1024` is exact in binary64.
* Signed 64 bit integers are integers wrapped into `[-2^63, 2^63)`.
-/

set_option exponentiation.threshold 4096
set_option maxRecDepth 16384

namespace CloudTrace

/-! ## Go primitives -/

/-- Text of a Go `error` (what `err.Error()` returns). -/
abbrev GoError := String

/-- Two's complement wrap of an integer into the `int64` range: the value of a Go
conversion `int64(x)` and of every `int64` arithmetic result. -/
def toInt64 (x : Int) : Int := (x + 2 ^ 63) % 2 ^ 64 - 2 ^ 63

/-- Largest `time.Duration` (`1<<63 - 1` nanoseconds). -/
def maxDuration : Int := 2 ^ 63 - 1

/-- Smallest `time.Duration` (`-1 << 63` nanoseconds). -/
def minDuration : Int := -(2 ^ 63)

/-- A `time.Time` as returned by `time.Now()`: a wall clock reading (nanoseconds since
the Unix epoch) together with the monotonic clock reading (nanoseconds since process
start) that `Sub` and `Since` use. -/
structure Time where
  wall : Int
  mono : Nat
  deriving DecidableEq, Repr

/-- The method `t.Sub(u)` for two readings that carry a monotonic clock value: the
difference of the monotonic readings, saturated to the `Duration` range. -/
def Time.Sub (t u : Time) : Int :=
  let d : Int := (t.mono : Int) - (u.mono : Int)
  if maxDuration < d then maxDuration else if d < minDuration then minDuration else d

/-- Number of binary digits of `n`, by repeated halving (`fuel` bounds the halvings). -/
def bitLenAux : Nat → Nat → Nat
  | 0, _ => 0
  | fuel + 1, n => if n = 0 then 0 else bitLenAux fuel (n / 2) + 1

/-- Number of binary digits of `n` (`0` for `0`). -/
def bitLen (n : Nat) : Nat := bitLenAux n n

/-- The Go conversion `float64(x)` of an `int64`: the nearest binary64 value, ties to
even. The result is again an integer: `x` itself when it has at most 53 significant
bits, otherwise a 53 bit significand times a power of two. -/
def float64OfInt64 (x : Int) : Int :=
  let n := x.natAbs
  let bits := bitLen n
  if bits ≤ 53 then x
  else
    let shift := bits - 53
    let k := n / 2 ^ shift
    let r := n % 2 ^ shift
    let half := 2 ^ (shift - 1)
    let m := if r < half then k else if half < r then k + 1 else if k % 2 = 0 then k else k + 1
    Int.sign x * ((m * 2 ^ shift : Nat) : Int)

/-! ## float64 -/

/-- A Go `float64`: an IEEE 754 binary64 datum. `fin neg m e` is the finite value
`(-1)^neg * m * 2^e`, kept in the unique form with `m < 2^53`, `-1074 ≤ e ≤ 971` and
`2^52 ≤ m` unless `e = -1074` (zeros and subnormals). -/
inductive Float64
  | nan
  | inf (neg : Bool)
  | fin (neg : Bool) (m : Nat) (e : Int)
  deriving DecidableEq, Repr

/-- The datum for a significand `m ≤ 2^53` at exponent `e`: a significand that rounding
carried up to `2^53` is renormalised to `2^52` at the next exponent, and an exponent
beyond the largest one gives an infinity. -/
def Float64.pack (neg : Bool) (m : Nat) (e : Int) : Float64 :=
  if m = 2 ^ 53 then
    (if 971 < e + 1 then .inf neg else .fin neg (2 ^ 52) (e + 1))
  else
    (if 971 < e then .inf neg else .fin neg m e)

/-- The exponent of the leading binary digit of `N / D` (for `N, D > 0`): the integer
`fl` with `2^fl ≤ N / D < 2^(fl+1)`, found from the digit counts of `N` and `D`. -/
def floorLog2 (N D : Nat) : Int :=
  let L : Int := (bitLen N : Int) - (bitLen D : Int)
  if D * 2 ^ L.toNat ≤ N * 2 ^ (-L).toNat then L else L - 1

/-- The integer nearest to `num / den`, ties to even. -/
def roundHalfEven (num den : Nat) : Nat :=
  let k : Nat := num / den
  let r : Nat := num % den
  if 2 * r < den then k else if den < 2 * r then k + 1 else if k % 2 = 0 then k else k + 1

/-- The exponent at which `(N / D) * 2^x` is rounded: the one that gives a 53 bit
significand, but not below the subnormal exponent `-1074`. -/
def Float64.roundExp (N D : Nat) (x : Int) : Int :=
  max (floorLog2 N D + x - 52) (-1074)

/-- The binary64 datum nearest to `(-1)^neg * (N / D) * 2^x` (`D > 0`), ties to even:
the rounding every binary64 operation applies to its exact result. Results beyond the
largest finite value become infinite, results below the normal range are rounded on the
subnormal grid `2^-1074`. -/
def Float64.round (neg : Bool) (N D : Nat) (x : Int) : Float64 :=
  if N = 0 then .fin neg 0 (-1074)
  else
    let e : Int := Float64.roundExp N D x
    let s : Int := x - e
    Float64.pack neg (roundHalfEven (N * 2 ^ s.toNat) (D * 2 ^ (-s).toNat)) e

/-- The signed integer `(-1)^neg * m`. -/
def signedNat (neg : Bool) (m : Nat) : Int := if neg then -(m : Int) else (m : Int)

/-- Unary minus on a `float64`. -/
def Float64.neg : Float64 → Float64
  | .nan => .nan
  | .inf s => .inf (!s)
  | .fin s m e => .fin (!s) m e

/-- The `float64` operation `a + b`. -/
def Float64.add (a b : Float64) : Float64 :=
  match a, b with
  | .nan, _ => .nan
  | _, .nan => .nan
  | .inf s, .inf t => if s = t then .inf s else .nan
  | .inf s, .fin _ _ _ => .inf s
  | .fin _ _ _, .inf t => .inf t
  | .fin s m e, .fin t n f =>
    let e0 : Int := min e f
    let sum : Int := signedNat s (m * 2 ^ (e - e0).toNat) + signedNat t (n * 2 ^ (f - e0).toNat)
    if sum = 0 then .fin (s && t) 0 (-1074)
    else Float64.round (decide (sum < 0)) sum.natAbs 1 e0

/-- The `float64` operation `a - b`. -/
def Float64.sub (a b : Float64) : Float64 := a.add b.neg

/-- The `float64` operation `a * b`. -/
def Float64.mul (a b : Float64) : Float64 :=
  match a, b with
  | .nan, _ => .nan
  | _, .nan => .nan
  | .inf s, .inf t => .inf (xor s t)
  | .inf s, .fin t n _ => if n = 0 then .nan else .inf (xor s t)
  | .fin s m _, .inf t => if m = 0 then .nan else .inf (xor s t)
  | .fin s m e, .fin t n f => Float64.round (xor s t) (m * n) 1 (e + f)

/-- The `float64` operation `a / b`. -/
def Float64.div (a b : Float64) : Float64 :=
  match a, b with
  | .nan, _ => .nan
  | _, .nan => .nan
  | .inf _, .inf _ => .nan
  | .inf s, .fin t _ _ => .inf (xor s t)
  | .fin s _ _, .inf t => .fin (xor s t) 0 (-1074)
  | .fin s m e, .fin t n f =>
    if n = 0 then (if m = 0 then .nan else .inf (xor s t))
    else Float64.round (xor s t) m n (e - f)

/-- The comparison `a > 0` on a `float64`. -/
def Float64.gtZero : Float64 → Bool
  | .nan => false
  | .inf s => !s
  | .fin s m _ => !s && decide (m ≠ 0)

/-- The conversion `float64(x)` of an integer, and the value of an integer constant
used as a `float64`. -/
def Float64.ofInt (x : Int) : Float64 := Float64.round (decide (x < 0)) x.natAbs 1 0

/-- The `float64` nearest to the decimal fraction `n / d`: the value of a decimal
literal. -/
def Float64.ofDecimal (n d : Nat) : Float64 := Float64.round false n d 0

/-- The method `Duration.Seconds`: `sec := d / Second; nsec := d % Second;
float64(sec) + float64(nsec)/1e9`, with Go's truncating `/` and `%`. -/
def Seconds (d : Int) : Float64 :=
  let sec : Int := Int.tdiv d 1000000000
  let nsec : Int := Int.tmod d 1000000000
  (Float64.ofInt sec).add ((Float64.ofInt nsec).div (Float64.ofInt 1000000000))

/-! ## gopsutil samples -/

/-- The fields of `cpu.TimesStat` the tracker reads: cumulative user and system CPU
seconds of the process. -/
structure TimesStat where
  User : Float64
  System : Float64
  deriving DecidableEq, Repr

/-- The field of `process.MemoryInfoStat` the tracker reads: resident set size in bytes
(a `uint64`). -/
structure MemoryInfoStat where
  RSS : Nat
  deriving DecidableEq, Repr

/-! ## tracegin.go: deltas -/

/-- The method `GinSDK.CalculateCPUUsage`. `now` is the clock reading taken by
`time.Since(start)` inside the function. -/
def CalculateCPUUsage (initial final : TimesStat) (start now : Time) : Float64 :=
  let cpuUser := final.User.sub initial.User
  let cpuSystem := final.System.sub initial.System
  let cpuTotal := cpuUser.add cpuSystem
  let elapsedTime := Seconds (now.Sub start)
  if elapsedTime.gtZero then
    (cpuTotal.div elapsedTime).mul (Float64.ofInt 100)
  else
    Float64.ofInt 0

/-- The statement `memoryUsage := int64(finalMem.RSS) - int64(initialMem.RSS)`. -/
def memoryUsage (initialMem finalMem : MemoryInfoStat) : Int :=
  toInt64 (toInt64 finalMem.RSS - toInt64 initialMem.RSS)

/-- The value stored in `info.MemoryDelta`: `float64(memoryUsage) / (1024 * 1024)`. -/
def MemoryDelta (initialMem finalMem : MemoryInfoStat) : ℚ :=
  (float64OfInt64 (memoryUsage initialMem finalMem) : ℚ) / (1024 * 1024)

/-! ## gin: requests, responses and handler dispatch -/

/-- The parts of `*http.Request` the tracker reads: `Request.Method` and
`Request.URL.Path`. -/
structure Request where
  Method : String
  Path : String
  deriving DecidableEq, Repr

/-- The response as held by `gin.ResponseWriter`: the status `Writer.Status()` reports
and the body written so far. -/
structure ResponseWriter where
  status : Int
  body : String
  deriving DecidableEq, Repr

/-- What running one downstream handler does: the response writer it leaves behind, and
the panic value if it panicked instead of returning. -/
structure HandlerResult where
  Writer : ResponseWriter
  panic : Option String
  deriving DecidableEq, Repr

/-- A route handler registered after the tracker. It reads the request and writes the
response; it neither calls `Next` nor aborts the chain. -/
abbrev HandlerFunc := Request → ResponseWriter → HandlerResult

/-- The `gin.Context` of one request. The tracker is `handlers[0]` of the chain it
belongs to; `handlers` lists the handlers registered after it (`handlers[1..]`), and
`index` is gin's position counter into the chain. -/
structure Context where
  Request : Request
  Writer : ResponseWriter
  handlers : List HandlerFunc
  index : Int

/-- The body of gin's dispatch loop `for c.index < len(c.handlers) { c.handlers[c.index](c);
c.index++ }` over the handlers that are still to run. A panic leaves the loop at once. -/
def runHandlers : List HandlerFunc → Context → Context × Option String
  | [], c => (c, none)
  | h :: hs, c =>
    let r := h c.Request c.Writer
    match r.panic with
    | some v => ({ c with Writer := r.Writer }, some v)
    | none => runHandlers hs { c with Writer := r.Writer, index := c.index + 1 }

/-- The handlers the dispatch loop still has to run when the counter stands at
`c.index`: chain position `i ≥ 1` is `c.handlers[i-1]`. -/
def Context.pending (c : Context) : List HandlerFunc :=
  c.handlers.drop (c.index - 1).toNat

/-- The method `(*gin.Context).Next`: `c.index++` followed by the dispatch loop. -/
def Context.Next (c : Context) : Context × Option String :=
  let c := { c with index := c.index + 1 }
  runHandlers c.pending c

/-! ## tracegin.go: the SDK -/

/-- The struct `requestInfo`. -/
structure requestInfo where
  DateTime : String
  RequestMethod : String
  RequestURL : String
  Status : Int
  Latency : String
  CPUDelta : Float64
  MemoryDelta : ℚ
  deriving DecidableEq, Repr

/-- One entry handed to `sdk.Logger`: an `Errorf` line, a plain `Info` line, or the
structured `WithFields(...).Info` line with the seven logged values. -/
inductive LogEntry
  | errorf (msg : String)
  | info (msg : String)
  | withFields (fields : requestInfo) (msg : String)
  deriving DecidableEq, Repr

/-- Operations on the shared resources of the SDK, as they appear in the shutdown code. -/
inductive Op
  | closeShutdownCh
  | wgWait
  | bufWriterFlush
  | logFileClose
  | dbClose
  | osExit
  deriving DecidableEq, Repr

/-- The state behind a `*GinSDK`.

* `Logger`: the entries handed to the logger, oldest first;
* `pool`: the records currently held by `sdk.pool`;
* `dbExecs`: the argument tuples of the `INSERT` statements issued on `sdk.db`;
* `dbRows`: the rows of `request_logs`;
* `shutdownChClosed`: whether `sdk.shutdownCh` has been closed;
* `flushTaskRunning`: whether `periodicFlush` has not yet been waited for (`sdk.wg`);
* `flushes`, `logFileCloses`, `dbCloses`: calls of `bufWriter.Flush`, `logFile.Close`,
  `db.Close` made by shutdown code;
* `ops`: the resource operations of shutdown code in the order they were performed. -/
structure GinSDK where
  Logger : List LogEntry
  pool : List requestInfo
  dbExecs : List requestInfo
  dbRows : List requestInfo
  shutdownChClosed : Bool
  flushTaskRunning : Bool
  flushes : Nat
  logFileCloses : Nat
  dbCloses : Nat
  ops : List Op
  deriving DecidableEq, Repr

/-- The SDK as `NewSDK` returns it: nothing logged, empty pool and table, shutdown
channel open, `periodicFlush` started. -/
def NewSDK : GinSDK :=
  { Logger := [], pool := [], dbExecs := [], dbRows := [],
    shutdownChClosed := false, flushTaskRunning := true,
    flushes := 0, logFileCloses := 0, dbCloses := 0, ops := [] }

/-- The call `sdk.Logger.Errorf(...)` with the formatted message. -/
def GinSDK.Errorf (sdk : GinSDK) (msg : String) : GinSDK :=
  { sdk with Logger := sdk.Logger ++ [LogEntry.errorf msg] }

/-- The call `sdk.Logger.Info(msg)`. -/
def GinSDK.Info (sdk : GinSDK) (msg : String) : GinSDK :=
  { sdk with Logger := sdk.Logger ++ [LogEntry.info msg] }

/-- The zero value `&requestInfo{}` produced by `sdk.pool.New`. -/
def requestInfo.zero : requestInfo :=
  { DateTime := "", RequestMethod := "", RequestURL := "", Status := 0, Latency := "",
    CPUDelta := Float64.ofInt 0, MemoryDelta := 0 }

/-- The call `sdk.pool.Get()`: a record put back earlier, with whatever it holds, or a
fresh one from `New` when the pool is empty. -/
def GinSDK.poolGet (sdk : GinSDK) : requestInfo × GinSDK :=
  match sdk.pool with
  | [] => (requestInfo.zero, sdk)
  | r :: rest => (r, { sdk with pool := rest })

/-- The call `sdk.pool.Put(info)`. -/
def GinSDK.poolPut (sdk : GinSDK) (r : requestInfo) : GinSDK :=
  { sdk with pool := r :: sdk.pool }

/-- What the environment answers during one run of the tracker, one field per call:
`start` for `time.Now()`, `newProcess` for `process.NewProcess` (`none`: a handle was
returned), the two `proc.Times()` and `proc.MemoryInfo()` calls before and after the
handler, `nowCPU` and `nowLatency` for the clock readings inside the two
`time.Since(start)` calls, `insertErr` for the error of `sdk.db.Exec` (`none`: the row
was stored), and the two library formatters `Time.Format(time.RFC3339)` and
`Duration.String`. -/
structure Env where
  start : Time
  newProcess : Option GoError
  initialTimes : Except GoError TimesStat
  initialMem : Except GoError MemoryInfoStat
  finalTimes : Except GoError TimesStat
  finalMem : Except GoError MemoryInfoStat
  nowCPU : Time
  nowLatency : Time
  insertErr : Option GoError
  formatRFC3339 : Time → String
  durationString : Int → String

/-- The handler returned by `GinSDK.GinTrackerMiddleware`, run on the context of one
request. Returns the SDK state, the context, and the panic value when a downstream
handler panicked (the deferred `recover` is installed only after `ctx.Next()` returns,
so such a panic leaves the tracker; the deferred `pool.Put` runs on every exit). -/
def GinTrackerMiddleware (env : Env) (sdk : GinSDK) (ctx : Context) :
    GinSDK × Context × Option String :=
  let (info, sdk) := sdk.poolGet
  let start := env.start
  match env.newProcess with
  | some err =>
    let sdk := sdk.Errorf ("Failed to get process: " ++ err)
    let (ctx, p) := ctx.Next
    (sdk.poolPut info, ctx, p)
  | none =>
  match env.initialTimes with
  | .error err =>
    let sdk := sdk.Errorf ("Failed to get initial CPU times: " ++ err)
    let (ctx, p) := ctx.Next
    (sdk.poolPut info, ctx, p)
  | .ok initialCPUTimes =>
  match env.initialMem with
  | .error err =>
    let sdk := sdk.Errorf ("Failed to get initial memory info: " ++ err)
    (sdk.poolPut info, ctx, none)
  | .ok initialMem =>
  let (ctx, p) := ctx.Next
  match p with
  | some v => (sdk.poolPut info, ctx, some v)
  | none =>
  match env.finalTimes with
  | .error err =>
    let sdk := sdk.Errorf ("Failed to get final CPU times: " ++ err)
    (sdk.poolPut info, ctx, none)
  | .ok finalCPUTimes =>
  match env.finalMem with
  | .error err =>
    let sdk := sdk.Errorf ("Failed to get final memory info: " ++ err)
    (sdk.poolPut info, ctx, none)
  | .ok finalMem =>
  let cpuUsage := CalculateCPUUsage initialCPUTimes finalCPUTimes start env.nowCPU
  let info := { info with DateTime := env.formatRFC3339 start }
  let info := { info with RequestMethod := ctx.Request.Method }
  let info := { info with RequestURL := ctx.Request.Path }
  let info := { info with Status := ctx.Writer.status }
  let info := { info with Latency := env.durationString (env.nowLatency.Sub start) }
  let info := { info with CPUDelta := cpuUsage }
  let info := { info with MemoryDelta := MemoryDelta initialMem finalMem }
  let sdk := { sdk with Logger := sdk.Logger ++ [LogEntry.withFields
    { DateTime := info.DateTime, RequestMethod := info.RequestMethod,
      RequestURL := info.RequestURL, Status := info.Status, Latency := info.Latency,
      CPUDelta := info.CPUDelta, MemoryDelta := info.MemoryDelta } "Request details logged"] }
  let sdk := { sdk with dbExecs := sdk.dbExecs ++ [info] }
  let sdk := match env.insertErr with
    | some err => sdk.Errorf ("Failed to insert log into database: " ++ err)
    | none => { sdk with dbRows := sdk.dbRows ++ [info] }
  (sdk.poolPut info, ctx, none)

/-- How gin serves one request whose chain is the tracker followed by `handlers`:
`c.index = -1`, then `c.Next()`, whose loop calls the tracker as `handlers[0]` and, once
the tracker has returned, goes on with whatever the counter says is still to run. -/
def ServeHTTP (env : Env) (sdk : GinSDK) (req : Request) (handlers : List HandlerFunc) :
    GinSDK × Context × Option String :=
  let c : Context :=
    { Request := req, Writer := { status := 200, body := "" }, handlers := handlers, index := -1 }
  let c := { c with index := c.index + 1 }
  let (sdk, c, p) := GinTrackerMiddleware env sdk c
  match p with
  | some v => (sdk, c, some v)
  | none =>
    let c := { c with index := c.index + 1 }
    let (c, p) := runHandlers c.pending c
    (sdk, c, p)

/-- The same request served by a chain without the tracker: the handlers alone. -/
def serveWithoutTracker (req : Request) (handlers : List HandlerFunc) :
    Context × Option String :=
  runHandlers handlers
    { Request := req, Writer := { status := 200, body := "" }, handlers := handlers, index := 0 }

/-! ## tracegin.go: shutdown -/

/-- How a piece of shutdown code ends: it returns, it panics with a value, it ends the
process (`os.Exit`), or it blocks forever. Each carries the SDK state reached. -/
inductive Outcome
  | returned (sdk : GinSDK)
  | panicked (sdk : GinSDK) (v : String)
  | exited (sdk : GinSDK)
  | blocked (sdk : GinSDK)
  deriving DecidableEq, Repr

/-- Sequencing of statements: the next statement runs only if the previous one returned. -/
def Outcome.andThen (o : Outcome) (f : GinSDK → Outcome) : Outcome :=
  match o with
  | .returned sdk => f sdk
  | .panicked sdk v => .panicked sdk v
  | .exited sdk => .exited sdk
  | .blocked sdk => .blocked sdk

/-- The SDK state an outcome carries. -/
def Outcome.sdk : Outcome → GinSDK
  | .returned sdk => sdk
  | .panicked sdk _ => sdk
  | .exited sdk => sdk
  | .blocked sdk => sdk

/-- The statement `close(sdk.shutdownCh)`. Closing a closed channel is a run-time panic. -/
def closeShutdownCh (sdk : GinSDK) : Outcome :=
  if sdk.shutdownChClosed then
    .panicked sdk "close of closed channel"
  else
    .returned { sdk with shutdownChClosed := true, ops := sdk.ops ++ [Op.closeShutdownCh] }

/-- The statement `sdk.wg.Wait()`. The only `Done` is the deferred one of `periodicFlush`,
which returns when it receives from the closed `shutdownCh`; so the wait ends, with the
flush task stopped, once the channel is closed, and blocks forever otherwise. -/
def wgWait (sdk : GinSDK) : Outcome :=
  if sdk.shutdownChClosed then
    .returned { sdk with flushTaskRunning := false, ops := sdk.ops ++ [Op.wgWait] }
  else
    .blocked sdk

/-- The statement `sdk.bufWriter.Flush()` (its error is dropped). -/
def bufWriterFlush (sdk : GinSDK) : Outcome :=
  .returned { sdk with flushes := sdk.flushes + 1, ops := sdk.ops ++ [Op.bufWriterFlush] }

/-- The statement `sdk.logFile.Close()` (its error is dropped). -/
def logFileClose (sdk : GinSDK) : Outcome :=
  .returned { sdk with logFileCloses := sdk.logFileCloses + 1, ops := sdk.ops ++ [Op.logFileClose] }

/-- The statement `sdk.db.Close()` (its error is dropped). -/
def dbClose (sdk : GinSDK) : Outcome :=
  .returned { sdk with dbCloses := sdk.dbCloses + 1, ops := sdk.ops ++ [Op.dbClose] }

/-- The statement `os.Exit(0)`. -/
def osExit (sdk : GinSDK) : Outcome :=
  .exited { sdk with ops := sdk.ops ++ [Op.osExit] }

/-- The method `GinSDK.Close`. -/
def GinSDK.Close (sdk : GinSDK) : Outcome :=
  (((closeShutdownCh sdk).andThen bufWriterFlush).andThen logFileClose).andThen dbClose

/-- The goroutine started by `GinSDK.SetupCleanup`, from the moment an interrupt or
termination signal is received on `c`. -/
def GinSDK.SetupCleanup_onSignal (sdk : GinSDK) : Outcome :=
  (((((((Outcome.returned (sdk.Info "Shutdown signal received, cleaning up...")).andThen
    closeShutdownCh).andThen wgWait).andThen bufWriterFlush).andThen logFileClose).andThen
    dbClose).andThen (fun sdk => .returned (sdk.Info "Cleanup complete"))).andThen osExit

/-- The drain sequence of the shutdown coordinator, in the order the specification
gives it. -/
def drainSequence : List Op :=
  [Op.closeShutdownCh, Op.wgWait, Op.bufWriterFlush, Op.logFileClose, Op.dbClose]

/-! ## register.go -/

/-- The payload `map[string]interface{}` of an event, as key/value text. -/
abbrev EventData := List (String × String)

/-- A value of the interface `MonitoringService`: what each of its three methods
returns. -/
structure MonitoringService where
  Register : Option GoError
  Track : String → EventData → Option GoError
  Monitor : Option GoError

/-- The struct `ServiceRegistry`. -/
structure ServiceRegistry where
  Services : List MonitoringService

/-- The loop shared by the three registry methods,
`for _, service := range sr.Services { if err := call(service); err != nil { return err } }
return nil`. Returns the positions (in `sr.Services`, counted from `i`) of the services
whose method was called, in call order, and the error returned. -/
def rangeServices (call : MonitoringService → Option GoError) :
    List MonitoringService → Nat → List Nat × Option GoError
  | [], _ => ([], none)
  | service :: rest, i =>
    match call service with
    | some err => ([i], some err)
    | none =>
      let r := rangeServices call rest (i + 1)
      (i :: r.1, r.2)

/-- The method `ServiceRegistry.Initialize`. -/
def ServiceRegistry.Initialize (sr : ServiceRegistry) : List Nat × Option GoError :=
  rangeServices (fun service => service.Register) sr.Services 0

/-- The method `ServiceRegistry.TrackEvent`. -/
def ServiceRegistry.TrackEvent (sr : ServiceRegistry) (event : String) (data : EventData) :
    List Nat × Option GoError :=
  rangeServices (fun service => service.Track event data) sr.Services 0

/-- The method `ServiceRegistry.StartMonitoring`. -/
def ServiceRegistry.StartMonitoring (sr : ServiceRegistry) : List Nat × Option GoError :=
  rangeServices (fun service => service.Monitor) sr.Services 0

/-! ## loggger.go and postgres.go: query traces -/

/-- The struct `DBQueryTrace`. -/
structure DBQueryTrace where
  TraceID : String
  SpanID : String
  Query : String
  StartTime : Time
  EndTime : Time
  Duration : Int
  Error : String
  Attributes : List (String × String)
  deriving DecidableEq, Repr

/-- What the environment answers during one `Query` or `Exec`: the clock readings of
`GenerateTraceID`, `GenerateSpanID` and of `StartTime`; the time that passes on the
monotonic clock until the reading for `EndTime` (`elapsed`, in nanoseconds) and the wall
clock at that reading; the result of the database call (rows or result on success, the
error otherwise); and the two `Time.Format` layouts used for the identifiers. -/
structure QueryEnv (ρ : Type) where
  traceNow : Time
  spanNow : Time
  startNow : Time
  elapsed : Nat
  endWall : Int
  result : Except GoError ρ
  formatTraceID : Time → String
  formatSpanID : Time → String

/-- The function `GenerateTraceID`. -/
def GenerateTraceID {ρ : Type} (env : QueryEnv ρ) : String :=
  "trace-" ++ env.formatTraceID env.traceNow

/-- The function `GenerateSpanID`. -/
def GenerateSpanID {ρ : Type} (env : QueryEnv ρ) : String :=
  "span-" ++ env.formatSpanID env.spanNow

/-- The clock reading `time.Now()` taken after the database call returned. -/
def QueryEnv.endNow {ρ : Type} (env : QueryEnv ρ) : Time :=
  { wall := env.endWall, mono := env.startNow.mono + env.elapsed }

/-- The method `PostgresMonitor.Query`. -/
def PostgresMonitor.Query {ρ : Type} (env : QueryEnv ρ) (query : String) :
    Option ρ × DBQueryTrace :=
  let trace : DBQueryTrace :=
    { TraceID := GenerateTraceID env, SpanID := GenerateSpanID env, Query := query,
      StartTime := env.startNow, EndTime := { wall := 0, mono := 0 }, Duration := 0,
      Error := "", Attributes := [("query_type", "SELECT")] }
  let trace := { trace with EndTime := env.endNow }
  let trace := { trace with Duration := trace.EndTime.Sub trace.StartTime }
  match env.result with
  | .error err => (none, { trace with Error := err })
  | .ok rows => (some rows, trace)

/-- The method `PostgresMonitor.Exec`. -/
def PostgresMonitor.Exec {ρ : Type} (env : QueryEnv ρ) (query : String) :
    Option ρ × DBQueryTrace :=
  let trace : DBQueryTrace :=
    { TraceID := GenerateTraceID env, SpanID := GenerateSpanID env, Query := query,
      StartTime := env.startNow, EndTime := { wall := 0, mono := 0 }, Duration := 0,
      Error := "", Attributes := [("query_type", "EXEC")] }
  let trace := { trace with EndTime := env.endNow }
  let trace := { trace with Duration := trace.EndTime.Sub trace.StartTime }
  match env.result with
  | .error err => (none, { trace with Error := err })
  | .ok result => (some result, trace)

/-! ## Observations used in the statements -/

/-- The structured telemetry records among the entries handed to the logger, oldest
first. -/
def telemetryRecords : List LogEntry → List requestInfo
  | [] => []
  | LogEntry.withFields fields _ :: rest => fields :: telemetryRecords rest
  | _ :: rest => telemetryRecords rest

/-- Whether one of the five sampling calls of a request (process handle, CPU times and
memory info before the handler, CPU times and memory info after it) answers with an
error. -/
def Env.samplingFails (env : Env) : Bool :=
  env.newProcess.isSome
    || (match env.initialTimes with | .error _ => true | .ok _ => false)
    || (match env.initialMem with | .error _ => true | .ok _ => false)
    || (match env.finalTimes with | .error _ => true | .ok _ => false)
    || (match env.finalMem with | .error _ => true | .ok _ => false)

/-- The record the tracker builds for a request when every sample succeeds, from the
request, the status the writer reports after the handlers ran, and the samples. -/
def expectedRecord (env : Env) (req : Request) (status : Int)
    (initialCPUTimes finalCPUTimes : TimesStat) (initialMem finalMem : MemoryInfoStat) :
    requestInfo :=
  { DateTime := env.formatRFC3339 env.start,
    RequestMethod := req.Method,
    RequestURL := req.Path,
    Status := status,
    Latency := env.durationString (env.nowLatency.Sub env.start),
    CPUDelta := CalculateCPUUsage initialCPUTimes finalCPUTimes env.start env.nowCPU,
    MemoryDelta := MemoryDelta initialMem finalMem }

/-- The handler of `GET /ping` in the test and the example: it answers 200 with the JSON
object whose `message` is `pong`. -/
def pingHandler : HandlerFunc :=
  fun _ w => { Writer := { status := 200, body := w.body ++ "\x7b\"message\":\"pong\"\x7d" },
               panic := none }

/-- The handler of `GET /logical-error` in the test: it answers 500 with its own body. -/
def logicalErrorHandler : HandlerFunc :=
  fun _ w => { Writer := { status := 500, body := w.body ++ "\x7b\"message\":\"logical error\"\x7d" },
               panic := none }

/-- The scenario of the specification: a request that takes 10 ms, during which the
process uses 2 ms of user and 1 ms of system CPU time and its RSS does not change; every
sample succeeds and the insert ends with `insertErr`. -/
def scenarioEnv (insertErr : Option GoError) : Env :=
  { start := { wall := 1700000000000000000, mono := 5000 },
    newProcess := none,
    initialTimes := .ok { User := Float64.ofDecimal 1 1, System := Float64.ofDecimal 5 10 },
    initialMem := .ok { RSS := 52428800 },
    finalTimes := .ok { User := Float64.ofDecimal 1002 1000,
                        System := Float64.ofDecimal 501 1000 },
    finalMem := .ok { RSS := 52428800 },
    nowCPU := { wall := 1700000000010000000, mono := 5000 + 10000000 },
    nowLatency := { wall := 1700000000010000000, mono := 5000 + 10000000 },
    insertErr := insertErr,
    formatRFC3339 := fun _ => "2023-11-14T22:13:20Z",
    durationString := fun _ => "10ms" }

/-- A service whose `Track` fails (its other methods succeed). -/
def failingTracker : MonitoringService :=
  { Register := none, Track := fun _ _ => some "track failed", Monitor := none }

/-- A service all of whose methods succeed. -/
def healthyService : MonitoringService :=
  { Register := none, Track := fun _ _ => none, Monitor := none }

/-- The number of services at the head of the list on which `call` succeeds. -/
def leadingSuccesses (call : MonitoringService → Option GoError) :
    List MonitoringService → Nat
  | [] => 0
  | service :: rest =>
    match call service with
    | some _ => 0
    | none => leadingSuccesses call rest + 1

/-- The first error `call` returns when tried on the services in order, if any. -/
def firstError (call : MonitoringService → Option GoError) :
    List MonitoringService → Option GoError
  | [] => none
  | service :: rest =>
    match call service with
    | some err => some err
    | none => firstError call rest

/-- A database call that fails with an error whose message is empty, as
`errors.New("")` has. -/
def emptyMessageEnv : QueryEnv Unit :=
  { traceNow := { wall := 1700000000000000000, mono := 1000 },
    spanNow := { wall := 1700000000000000100, mono := 1100 },
    startNow := { wall := 1700000000000000200, mono := 1200 },
    elapsed := 2500000,
    endWall := 1700000000002500200,
    result := .error "",
    formatTraceID := fun _ => "20231114221320",
    formatSpanID := fun _ => "221320.000" }

/-- A database call that succeeds after 2.5 ms. -/
def successEnv : QueryEnv Unit :=
  { emptyMessageEnv with result := .ok () }

/-! ## Arithmetic of the Go primitives -/

theorem toInt64_of_fits (x : Int) (hlo : -(2 ^ 63) ≤ x) (hhi : x < 2 ^ 63) : toInt64 x = x := by
  unfold toInt64
  norm_num at hlo hhi ⊢
  omega

theorem toInt64_sub (a b : Int) : toInt64 (toInt64 a - toInt64 b) = toInt64 (a - b) := by
  unfold toInt64
  norm_num
  omega

theorem bitLenAux_spec : ∀ (fuel n : Nat), n < 2 ^ fuel →
    n < 2 ^ bitLenAux fuel n ∧ (n ≠ 0 → 2 ^ (bitLenAux fuel n - 1) ≤ n) := by
  intro fuel
  induction fuel with
  | zero =>
    intro n hn
    simp at hn
    subst hn
    simp [bitLenAux]
  | succ fuel ih =>
    intro n hn
    by_cases h0 : n = 0
    · subst h0
      simp [bitLenAux]
    · have hhalf : n / 2 < 2 ^ fuel := by
        rw [pow_succ] at hn
        omega
      obtain ⟨h1, h2⟩ := ih (n / 2) hhalf
      simp only [bitLenAux, h0, if_false]
      constructor
      · rw [pow_succ]
        omega
      · intro _
        simp only [Nat.add_sub_cancel]
        by_cases hz : n / 2 = 0
        · have : bitLenAux fuel (n / 2) = 0 := by
            rw [hz]
            cases fuel <;> simp [bitLenAux]
          rw [this]
          simp
          omega
        · have h3 := h2 hz
          have hpos : 0 < bitLenAux fuel (n / 2) := by
            by_contra hc
            have hc0 : bitLenAux fuel (n / 2) = 0 := by omega
            rw [hc0] at h1
            simp at h1
            exact hz h1
          have : bitLenAux fuel (n / 2) = (bitLenAux fuel (n / 2) - 1) + 1 := by omega
          rw [this, pow_succ]
          omega

theorem bitLen_spec (n : Nat) : n < 2 ^ bitLen n ∧ (n ≠ 0 → 2 ^ (bitLen n - 1) ≤ n) :=
  bitLenAux_spec n n (Nat.lt_two_pow n)

theorem bitLen_le_of_lt (n : Nat) (h : n < 2 ^ 53) : bitLen n ≤ 53 := by
  by_cases h0 : n = 0
  · subst h0
    simp [bitLen, bitLenAux]
  · have h2 := (bitLen_spec n).2 h0
    have h3 : 2 ^ (bitLen n - 1) < 2 ^ 53 := lt_of_le_of_lt h2 h
    have h4 : bitLen n - 1 < 53 := (Nat.pow_lt_pow_iff_right (by norm_num)).1 h3
    omega

theorem float64OfInt64_exact (x : Int) (h : x.natAbs < 2 ^ 53) : float64OfInt64 x = x := by
  unfold float64OfInt64
  simp only
  rw [if_pos (bitLen_le_of_lt _ h)]

theorem float64OfInt64_exact_le (x : Int) (h : x.natAbs ≤ 2 ^ 53) : float64OfInt64 x = x := by
  rcases Nat.lt_or_ge x.natAbs (2 ^ 53) with hlt | hge
  · exact float64OfInt64_exact x hlt
  · have heq : x.natAbs = 2 ^ 53 := le_antisymm h hge
    rcases Int.natAbs_eq x with hx | hx
    · rw [hx, heq]
      decide
    · rw [hx, heq]
      decide

theorem float64OfInt64_sign (x : Int) :
    ∃ M : Nat, (x ≠ 0 → 0 < M) ∧ float64OfInt64 x = Int.sign x * (M : Int) := by
  by_cases hb : bitLen x.natAbs ≤ 53
  · refine ⟨x.natAbs, ?_, ?_⟩
    · intro hx
      exact Int.natAbs_pos.2 hx
    · unfold float64OfInt64
      simp only
      rw [if_pos hb]
      exact (Int.sign_mul_natAbs x).symm
  · have hn0 : x.natAbs ≠ 0 := by
      intro h0
      apply hb
      rw [h0]
      simp [bitLen, bitLenAux]
    have hlow := (bitLen_spec x.natAbs).2 hn0
    have hshift : 2 ^ (bitLen x.natAbs - 53) ≤ x.natAbs := by
      refine le_trans ?_ hlow
      exact Nat.pow_le_pow_right (by norm_num) (by omega)
    have hk : 0 < x.natAbs / 2 ^ (bitLen x.natAbs - 53) :=
      Nat.div_pos hshift (by positivity)
    refine ⟨(if x.natAbs % 2 ^ (bitLen x.natAbs - 53) < 2 ^ (bitLen x.natAbs - 53 - 1) then
        x.natAbs / 2 ^ (bitLen x.natAbs - 53)
      else if 2 ^ (bitLen x.natAbs - 53 - 1) < x.natAbs % 2 ^ (bitLen x.natAbs - 53) then
        x.natAbs / 2 ^ (bitLen x.natAbs - 53) + 1
      else if x.natAbs / 2 ^ (bitLen x.natAbs - 53) % 2 = 0 then
        x.natAbs / 2 ^ (bitLen x.natAbs - 53)
      else x.natAbs / 2 ^ (bitLen x.natAbs - 53) + 1) * 2 ^ (bitLen x.natAbs - 53), ?_, ?_⟩
    · intro _
      apply Nat.mul_pos _ (by positivity)
      split_ifs <;> omega
    · unfold float64OfInt64
      simp only
      rw [if_neg hb]

theorem float64OfInt64_neg_iff (x : Int) : float64OfInt64 x < 0 ↔ x < 0 := by
  obtain ⟨M, hM, hx⟩ := float64OfInt64_sign x
  rw [hx]
  rcases lt_trichotomy x 0 with h | h | h
  · have hMpos : (0 : Int) < (M : Int) := by exact_mod_cast hM (ne_of_lt h)
    rw [Int.sign_eq_neg_one_of_neg h]
    constructor
    · intro _
      exact h
    · intro _
      linarith
  · subst h
    simp
  · have hMpos : (0 : Int) < (M : Int) := by exact_mod_cast hM (ne_of_gt h)
    rw [Int.sign_eq_one_of_pos h]
    constructor
    · intro h1
      linarith
    · intro h1
      linarith

theorem float64OfInt64_zero : float64OfInt64 0 = 0 := by decide

theorem memoryUsage_of_fits (initialMem finalMem : MemoryInfoStat)
    (hlo : -(2 ^ 63) ≤ (finalMem.RSS : Int) - (initialMem.RSS : Int))
    (hhi : (finalMem.RSS : Int) - (initialMem.RSS : Int) < 2 ^ 63) :
    memoryUsage initialMem finalMem = (finalMem.RSS : Int) - (initialMem.RSS : Int) := by
  unfold memoryUsage
  rw [toInt64_sub, toInt64_of_fits _ hlo hhi]

theorem Sub_after (w w2 : Int) (t d : Nat) (hd : d < 2 ^ 63) :
    Time.Sub { wall := w2, mono := t + d } { wall := w, mono := t } = d := by
  have h1 : ((t + d : Nat) : Int) - (t : Int) = (d : Int) := by
    push_cast
    ring
  have h2 : (d : Int) < 2 ^ 63 := by exact_mod_cast hd
  have h3 : (0 : Int) ≤ (d : Int) := Int.natCast_nonneg d
  unfold Time.Sub maxDuration minDuration
  simp only [h1]
  rw [if_neg (by omega), if_neg (by omega)]

/-! ## Signs of binary64 results -/

theorem pack_shape (neg : Bool) (m : Nat) (e : Int) :
    Float64.pack neg m e = Float64.inf neg
      ∨ ∃ m2 e2, Float64.pack neg m e = Float64.fin neg m2 e2 := by
  unfold Float64.pack
  split_ifs
  · left; rfl
  · right; exact ⟨_, _, rfl⟩
  · left; rfl
  · right; exact ⟨_, _, rfl⟩

theorem round_shape (neg : Bool) (N D : Nat) (x : Int) :
    Float64.round neg N D x = Float64.inf neg
      ∨ ∃ m e, Float64.round neg N D x = Float64.fin neg m e ∧ (N = 0 → m = 0) := by
  unfold Float64.round
  by_cases hN : N = 0
  · right
    exact ⟨0, -1074, by simp [hN], fun _ => rfl⟩
  · simp only [hN, if_false]
    rcases pack_shape neg _ _ with h | ⟨m2, e2, h⟩
    · left; exact h
    · right; exact ⟨m2, e2, h, fun h0 => False.elim h0⟩

theorem round_neg_not_gtZero (N D : Nat) (x : Int) :
    (Float64.round true N D x).gtZero = false := by
  rcases round_shape true N D x with h | ⟨m, e, h, _⟩ <;> rw [h] <;> simp [Float64.gtZero]

theorem round_zero_not_gtZero (neg : Bool) (D : Nat) (x : Int) :
    (Float64.round neg 0 D x).gtZero = false := by
  simp [Float64.round, Float64.gtZero]

theorem ofInt_nonpos_shape (x : Int) (hx : x ≤ 0) :
    Float64.ofInt x = Float64.inf true
      ∨ ∃ neg m e, Float64.ofInt x = Float64.fin neg m e ∧ (neg = true ∨ m = 0) := by
  unfold Float64.ofInt
  rcases lt_or_eq_of_le hx with hlt | heq
  · have hd : decide (x < 0) = true := by simpa using hlt
    rw [hd]
    rcases round_shape true x.natAbs 1 0 with h | ⟨m, e, h, _⟩
    · left; exact h
    · right; exact ⟨true, m, e, h, Or.inl rfl⟩
  · subst heq
    right
    exact ⟨false, 0, -1074, by decide, Or.inr rfl⟩

theorem signedNat_nonpos (neg : Bool) (m k : Nat) (h : neg = true ∨ m = 0) :
    signedNat neg (m * k) ≤ 0 := by
  unfold signedNat
  rcases h with h | h
  · subst h
    simp only [if_true]
    have : (0 : Int) ≤ ((m * k : Nat) : Int) := Int.natCast_nonneg _
    omega
  · subst h
    cases neg <;> simp

theorem add_not_gtZero (a b : Float64) (ha : a.gtZero = false) (hb : b.gtZero = false) :
    (a.add b).gtZero = false := by
  cases a with
  | nan => simp [Float64.add, Float64.gtZero]
  | inf s =>
    cases b with
    | nan => simp [Float64.add, Float64.gtZero]
    | inf t =>
      simp only [Float64.gtZero, Bool.not_eq_false'] at ha hb
      subst ha
      subst hb
      simp [Float64.add, Float64.gtZero]
    | fin t n f =>
      simp only [Float64.gtZero, Bool.not_eq_false'] at ha
      subst ha
      simp [Float64.add, Float64.gtZero]
  | fin s m e =>
    cases b with
    | nan => simp [Float64.add, Float64.gtZero]
    | inf t =>
      simp only [Float64.gtZero, Bool.not_eq_false'] at hb
      subst hb
      simp [Float64.add, Float64.gtZero]
    | fin t n f =>
      have hs : s = true ∨ m = 0 := by
        cases s <;> simp [Float64.gtZero] at ha ⊢
        exact ha
      have ht : t = true ∨ n = 0 := by
        cases t <;> simp [Float64.gtZero] at hb ⊢
        exact hb
      have h1 := signedNat_nonpos s m (2 ^ (e - min e f).toNat) hs
      have h2 := signedNat_nonpos t n (2 ^ (f - min e f).toNat) ht
      simp only [Float64.add]
      split_ifs with hz
      · simp [Float64.gtZero]
      · have hlt : signedNat s (m * 2 ^ (e - min e f).toNat)
            + signedNat t (n * 2 ^ (f - min e f).toNat) < 0 := by omega
        have hd : decide (signedNat s (m * 2 ^ (e - min e f).toNat)
            + signedNat t (n * 2 ^ (f - min e f).toNat) < 0) = true := by simpa using hlt
        rw [hd]
        exact round_neg_not_gtZero _ _ _

theorem ofInt_billion :
    Float64.ofInt 1000000000 = Float64.fin false 8388608000000000 (-23) := by decide

theorem div_billion_not_gtZero (x : Int) (hx : x ≤ 0) :
    ((Float64.ofInt x).div (Float64.ofInt 1000000000)).gtZero = false := by
  rw [ofInt_billion]
  rcases ofInt_nonpos_shape x hx with h | ⟨neg, m, e, h, hsign⟩
  · rw [h]
    simp [Float64.div, Float64.gtZero]
  · rw [h]
    simp only [Float64.div]
    rw [if_neg (by norm_num)]
    rcases hsign with hneg | hm
    · subst hneg
      simpa using round_neg_not_gtZero m 8388608000000000 (e - -23)
    · subst hm
      exact round_zero_not_gtZero _ _ _

theorem ofInt_not_gtZero (x : Int) (hx : x ≤ 0) : (Float64.ofInt x).gtZero = false := by
  rcases ofInt_nonpos_shape x hx with h | ⟨neg, m, e, h, hsign⟩
  · rw [h]
    simp [Float64.gtZero]
  · rw [h]
    rcases hsign with hneg | hm
    · subst hneg
      simp [Float64.gtZero]
    · subst hm
      simp [Float64.gtZero]

theorem tdiv_tmod_nonpos (d : Int) (hd : d ≤ 0) :
    Int.tdiv d 1000000000 ≤ 0 ∧ Int.tmod d 1000000000 ≤ 0 := by
  obtain ⟨n, rfl⟩ : ∃ n : Nat, d = -(n : Int) := ⟨d.natAbs, by omega⟩
  have h1 : 0 ≤ Int.tdiv (n : Int) 1000000000 := Int.tdiv_nonneg (by omega) (by norm_num)
  have h2 : 0 ≤ Int.tmod (n : Int) 1000000000 := Int.tmod_nonneg _ (by omega)
  have h3 := Int.tdiv_add_tmod (n : Int) 1000000000
  have h4 := Int.tdiv_add_tmod (-(n : Int)) 1000000000
  rw [Int.neg_tdiv] at h4 ⊢
  constructor <;> omega

theorem Seconds_not_gtZero (d : Int) (hd : d ≤ 0) : (Seconds d).gtZero = false := by
  obtain ⟨hsec, hnsec⟩ := tdiv_tmod_nonpos d hd
  unfold Seconds
  exact add_not_gtZero _ _ (ofInt_not_gtZero _ hsec) (div_billion_not_gtZero _ hnsec)

theorem roundHalfEven_pos (num den : Nat) (hden : 0 < den) (h : den ≤ num) :
    0 < roundHalfEven num den := by
  have hk : 0 < num / den := Nat.div_pos h hden
  unfold roundHalfEven
  simp only
  split_ifs <;> omega

theorem pack_pos (m : Nat) (e : Int) (hm : 0 < m) : (Float64.pack false m e).gtZero = true := by
  unfold Float64.pack
  split_ifs with h1 h2 h3
  · simp [Float64.gtZero]
  · simp [Float64.gtZero]
  · simp [Float64.gtZero]
  · simp [Float64.gtZero]
    omega

theorem pack_exp (neg : Bool) (m : Nat) (e : Int) (he : -1074 ≤ e) :
    Float64.pack neg m e = Float64.inf neg
      ∨ ∃ m2 e2, Float64.pack neg m e = Float64.fin neg m2 e2 ∧ -1074 ≤ e2 ∧ e ≤ e2
          ∧ (0 < m → 0 < m2) := by
  unfold Float64.pack
  split_ifs with h1 h2 h3
  · left; rfl
  · right; exact ⟨2 ^ 52, e + 1, rfl, by omega, by omega, fun _ => by norm_num⟩
  · left; rfl
  · right; exact ⟨m, e, rfl, he, le_refl _, fun h => h⟩

theorem bitLen_one : bitLen 1 = 1 := by decide

theorem floorLog2_spec (N D : Nat) (hN : 0 < N) :
    D * 2 ^ (floorLog2 N D).toNat ≤ N * 2 ^ (-(floorLog2 N D)).toNat := by
  have hNb := (bitLen_spec N).2 (by omega)
  have hDb := (bitLen_spec D).1
  have hbN : 0 < bitLen N := by
    by_contra hc
    have h0 : bitLen N = 0 := by omega
    have := (bitLen_spec N).1
    rw [h0] at this
    simp at this
    omega
  unfold floorLog2
  simp only
  split_ifs with h
  · exact h
  · rcases Nat.lt_or_ge (bitLen D) (bitLen N) with hlt | hge
    · -- L - 1 ≥ 0
      have e1 : ((bitLen N : Int) - (bitLen D : Int) - 1).toNat = bitLen N - bitLen D - 1 := by omega
      have e2 : (-((bitLen N : Int) - (bitLen D : Int) - 1)).toNat = 0 := by omega
      rw [e1, e2, pow_zero, mul_one]
      calc D * 2 ^ (bitLen N - bitLen D - 1)
          ≤ 2 ^ bitLen D * 2 ^ (bitLen N - bitLen D - 1) := Nat.mul_le_mul_right _ (le_of_lt hDb)
        _ = 2 ^ (bitLen N - 1) := by
            rw [← pow_add]
            congr 1
            omega
        _ ≤ N := hNb
    · have e1 : ((bitLen N : Int) - (bitLen D : Int) - 1).toNat = 0 := by omega
      have e2 : (-((bitLen N : Int) - (bitLen D : Int) - 1)).toNat = bitLen D - bitLen N + 1 := by
        omega
      rw [e1, e2, pow_zero, mul_one]
      calc D ≤ 2 ^ bitLen D := le_of_lt hDb
        _ = 2 ^ (bitLen N - 1) * 2 ^ (bitLen D - bitLen N + 1) := by
            rw [← pow_add]
            congr 1
            omega
        _ ≤ N * 2 ^ (bitLen D - bitLen N + 1) := Nat.mul_le_mul_right _ hNb

theorem floorLog2_ge (N D : Nat) :
    (bitLen N : Int) - (bitLen D : Int) - 1 ≤ floorLog2 N D := by
  unfold floorLog2
  simp only
  split_ifs <;> omega

theorem round_num_den (N D : Nat) (x : Int) (hN : 0 < N)
    (hun : -1074 ≤ floorLog2 N D + x - 52) :
    D * 2 ^ (-(x - Float64.roundExp N D x)).toNat
      ≤ N * 2 ^ (x - Float64.roundExp N D x).toNat := by
  have hspec := floorLog2_spec N D hN
  have he : Float64.roundExp N D x = floorLog2 N D + x - 52 := by
    unfold Float64.roundExp
    omega
  rw [he]
  generalize floorLog2 N D = fl at *
  rcases le_or_lt fl 52 with h52 | h52
  · have e1 : (-(x - (fl + x - 52))).toNat = 0 := by omega
    rw [e1, pow_zero, mul_one]
    rcases le_or_lt 0 fl with h0 | h0
    · have e2 : (-fl).toNat = 0 := by omega
      rw [e2, pow_zero, mul_one] at hspec
      calc D ≤ D * 2 ^ fl.toNat := Nat.le_mul_of_pos_right _ (by positivity)
        _ ≤ N := hspec
        _ ≤ N * 2 ^ (x - (fl + x - 52)).toNat := Nat.le_mul_of_pos_right _ (by positivity)
    · have e2 : fl.toNat = 0 := by omega
      rw [e2, pow_zero, mul_one] at hspec
      calc D ≤ N * 2 ^ (-fl).toNat := hspec
        _ ≤ N * 2 ^ (x - (fl + x - 52)).toNat :=
            Nat.mul_le_mul_left _ (Nat.pow_le_pow_right (by norm_num) (by omega))
  · have e1 : (x - (fl + x - 52)).toNat = 0 := by omega
    have e2 : (-fl).toNat = 0 := by omega
    rw [e1, pow_zero, mul_one]
    rw [e2, pow_zero, mul_one] at hspec
    calc D * 2 ^ (-(x - (fl + x - 52))).toNat
        ≤ D * 2 ^ fl.toNat :=
          Nat.mul_le_mul_left _ (Nat.pow_le_pow_right (by norm_num) (by omega))
      _ ≤ N := hspec

theorem round_pos_of_unclamped (N D : Nat) (x : Int) (hN : 0 < N) (hD : 0 < D)
    (hun : -1074 ≤ floorLog2 N D + x - 52) :
    (Float64.round false N D x).gtZero = true := by
  unfold Float64.round
  rw [if_neg (by omega)]
  simp only
  apply pack_pos
  apply roundHalfEven_pos
  · positivity
  · exact round_num_den N D x hN hun

theorem round_int_pos (N : Nat) (x : Int) (hN : 0 < N) (hx : -1074 ≤ x) :
    (Float64.round false N 1 x).gtZero = true := by
  rcases le_or_lt (-1074) (floorLog2 N 1 + x - 52) with hun | hcl
  · exact round_pos_of_unclamped N 1 x hN (by norm_num) hun
  · unfold Float64.round
    rw [if_neg (by omega)]
    simp only
    apply pack_pos
    apply roundHalfEven_pos
    · positivity
    · have he : Float64.roundExp N 1 x = -1074 := by
        unfold Float64.roundExp
        omega
      rw [he]
      have e1 : (-(x - -1074)).toNat = 0 := by omega
      rw [e1, pow_zero, mul_one]
      exact Nat.le_trans hN (Nat.le_mul_of_pos_right _ (by positivity))

theorem bitLen_pos (n : Nat) (hn : 0 < n) : 0 < bitLen n := by
  by_contra hc
  have h0 : bitLen n = 0 := by omega
  have := (bitLen_spec n).1
  rw [h0] at this
  simp at this
  omega

theorem round_nonneg_shape (N D : Nat) (x : Int) :
    Float64.round false N D x = Float64.inf false
      ∨ ∃ m e, Float64.round false N D x = Float64.fin false m e ∧ -1074 ≤ e := by
  unfold Float64.round
  by_cases hN : N = 0
  · right
    exact ⟨0, -1074, by simp [hN], le_refl _⟩
  · rw [if_neg hN]
    simp only
    have he : -1074 ≤ Float64.roundExp N D x := by
      unfold Float64.roundExp
      omega
    rcases pack_exp false (roundHalfEven (N * 2 ^ (x - Float64.roundExp N D x).toNat)
        (D * 2 ^ (-(x - Float64.roundExp N D x)).toNat)) (Float64.roundExp N D x) he
      with h | ⟨m2, e2, h, h1, _, _⟩
    · left; exact h
    · right; exact ⟨m2, e2, h, h1⟩

theorem ofInt_pos_shape (x : Int) (hx : 0 < x) :
    Float64.ofInt x = Float64.inf false
      ∨ ∃ m e, Float64.ofInt x = Float64.fin false m e ∧ 0 < m ∧ -53 ≤ e := by
  have hd : decide (x < 0) = false := by simpa using le_of_lt hx
  have hN : 0 < x.natAbs := Int.natAbs_pos.2 (ne_of_gt hx)
  have hfl := floorLog2_ge x.natAbs 1
  have hb := bitLen_pos x.natAbs hN
  rw [bitLen_one] at hfl
  have hexp : -53 ≤ Float64.roundExp x.natAbs 1 0 := by
    unfold Float64.roundExp
    omega
  have hun : -1074 ≤ floorLog2 x.natAbs 1 + 0 - 52 := by omega
  unfold Float64.ofInt
  rw [hd]
  unfold Float64.round
  rw [if_neg (by omega)]
  simp only
  have hm : 0 < roundHalfEven (x.natAbs * 2 ^ (0 - Float64.roundExp x.natAbs 1 0).toNat)
      (1 * 2 ^ (-(0 - Float64.roundExp x.natAbs 1 0)).toNat) :=
    roundHalfEven_pos _ _ (by positivity) (round_num_den x.natAbs 1 0 hN hun)
  rcases pack_exp false _ (Float64.roundExp x.natAbs 1 0) (by omega)
    with h | ⟨m2, e2, h, _, h2, h3⟩
  · left; exact h
  · right; exact ⟨m2, e2, h, h3 hm, by omega⟩

theorem ofInt_nonneg_shape (x : Int) (hx : 0 ≤ x) :
    Float64.ofInt x = Float64.inf false
      ∨ ∃ m e, Float64.ofInt x = Float64.fin false m e ∧ -1074 ≤ e := by
  have hd : decide (x < 0) = false := by simpa using hx
  unfold Float64.ofInt
  rw [hd]
  exact round_nonneg_shape _ _ _

theorem ofInt_gtZero (x : Int) (hx : 0 < x) : (Float64.ofInt x).gtZero = true := by
  rcases ofInt_pos_shape x hx with h | ⟨m, e, h, hm, _⟩
  · rw [h]; rfl
  · rw [h]
    simp [Float64.gtZero]
    omega

theorem bitLen_billion : bitLen 8388608000000000 = 53 := by decide

theorem div_billion_nonneg_shape (x : Int) (hx : 0 ≤ x) :
    (Float64.ofInt x).div (Float64.ofInt 1000000000) = Float64.inf false
      ∨ ∃ m e, (Float64.ofInt x).div (Float64.ofInt 1000000000) = Float64.fin false m e
          ∧ -1074 ≤ e := by
  rw [ofInt_billion]
  rcases ofInt_nonneg_shape x hx with h | ⟨m, e, h, _⟩
  · left
    rw [h]
    simp [Float64.div]
  · rw [h]
    simp only [Float64.div]
    rw [if_neg (by norm_num)]
    simpa using round_nonneg_shape m 8388608000000000 (e - -23)

theorem div_billion_gtZero (x : Int) (hx : 0 < x) :
    ((Float64.ofInt x).div (Float64.ofInt 1000000000)).gtZero = true := by
  rw [ofInt_billion]
  rcases ofInt_pos_shape x hx with h | ⟨m, e, h, hm, he⟩
  · rw [h]
    simp [Float64.div, Float64.gtZero]
  · rw [h]
    simp only [Float64.div]
    rw [if_neg (by norm_num)]
    have hfl := floorLog2_ge m 8388608000000000
    have hb := bitLen_pos m hm
    rw [bitLen_billion] at hfl
    have := round_pos_of_unclamped m 8388608000000000 (e - -23) hm (by norm_num) (by omega)
    simpa using this

theorem add_gtZero (a b : Float64)
    (ha : a = Float64.inf false ∨ ∃ m e, a = Float64.fin false m e ∧ -1074 ≤ e)
    (hb : b = Float64.inf false ∨ ∃ m e, b = Float64.fin false m e ∧ -1074 ≤ e)
    (hpos : a.gtZero = true ∨ b.gtZero = true) : (a.add b).gtZero = true := by
  rcases ha with ha | ⟨m, e, ha, he⟩ <;> rcases hb with hb | ⟨n, f, hb, hf⟩
  · rw [ha, hb]; simp [Float64.add, Float64.gtZero]
  · rw [ha, hb]; simp [Float64.add, Float64.gtZero]
  · rw [ha, hb]; simp [Float64.add, Float64.gtZero]
  · rw [ha, hb] at hpos ⊢
    simp only [Float64.gtZero, Bool.not_false, Bool.true_and, decide_eq_true_eq] at hpos
    have hA : (0 : Int) ≤ signedNat false (m * 2 ^ (e - min e f).toNat) := by
      simp [signedNat]
    have hB : (0 : Int) ≤ signedNat false (n * 2 ^ (f - min e f).toNat) := by
      simp [signedNat]
    have hsum : (0 : Int) < signedNat false (m * 2 ^ (e - min e f).toNat)
        + signedNat false (n * 2 ^ (f - min e f).toNat) := by
      rcases hpos with h | h
      · have : (0 : Int) < signedNat false (m * 2 ^ (e - min e f).toNat) := by
          simp only [signedNat, Bool.false_eq_true, if_false]
          have : 0 < m * 2 ^ (e - min e f).toNat := Nat.mul_pos (by omega) (by positivity)
          exact_mod_cast this
        omega
      · have : (0 : Int) < signedNat false (n * 2 ^ (f - min e f).toNat) := by
          simp only [signedNat, Bool.false_eq_true, if_false]
          have : 0 < n * 2 ^ (f - min e f).toNat := Nat.mul_pos (by omega) (by positivity)
          exact_mod_cast this
        omega
    simp only [Float64.add]
    rw [if_neg (by omega)]
    have hd : decide (signedNat false (m * 2 ^ (e - min e f).toNat)
        + signedNat false (n * 2 ^ (f - min e f).toNat) < 0) = false := by
      simpa using le_of_lt hsum
    rw [hd]
    apply round_int_pos
    · exact Int.natAbs_pos.2 (ne_of_gt hsum)
    · omega

theorem tdiv_tmod_pos (d : Int) (hd : 0 < d) :
    0 ≤ Int.tdiv d 1000000000 ∧ 0 ≤ Int.tmod d 1000000000
      ∧ (0 < Int.tdiv d 1000000000 ∨ 0 < Int.tmod d 1000000000) := by
  have h1 : 0 ≤ Int.tdiv d 1000000000 := Int.tdiv_nonneg (by omega) (by norm_num)
  have h2 : 0 ≤ Int.tmod d 1000000000 := Int.tmod_nonneg _ (by omega)
  have h3 := Int.tdiv_add_tmod d 1000000000
  refine ⟨h1, h2, ?_⟩
  omega

theorem Seconds_gtZero (d : Int) (hd : 0 < d) : (Seconds d).gtZero = true := by
  obtain ⟨hsec, hnsec, hpos⟩ := tdiv_tmod_pos d hd
  unfold Seconds
  apply add_gtZero _ _ (ofInt_nonneg_shape _ hsec) (div_billion_nonneg_shape _ hnsec)
  rcases hpos with h | h
  · left; exact ofInt_gtZero _ h
  · right; exact div_billion_gtZero _ h

/-! ## C5, C6: the deltas -/

/-- C5. `CalculateCPUUsage` returns `((final.User - initial.User) + (final.System -
initial.System)) / elapsed * 100`, computed in `float64` with `elapsed` the seconds since
`start`, when `elapsed > 0`, which is the case exactly when the clock has advanced since
`start`, and exactly `0` when the elapsed time is zero or negative; no core count enters.
When the user delta is the `float64` `0.002`, the system delta the `float64` `0.001` and
10 ms have elapsed, the result is exactly `30`. -/
theorem CalculateCPUUsage_spec :
    (∀ (initial final : TimesStat) (start now : Time),
      CalculateCPUUsage initial final start now =
        if (Seconds (now.Sub start)).gtZero = true then
          (((final.User.sub initial.User).add (final.System.sub initial.System)).div
            (Seconds (now.Sub start))).mul (Float64.ofInt 100)
        else Float64.ofInt 0)
    ∧ (∀ (start now : Time), (Seconds (now.Sub start)).gtZero = true ↔ 0 < now.Sub start)
    ∧ (∀ (initial final : TimesStat) (start now : Time), now.Sub start ≤ 0 →
      CalculateCPUUsage initial final start now = Float64.ofInt 0)
    ∧ (∀ (initial final : TimesStat) (w w2 : Int) (t : Nat),
      final.User.sub initial.User = Float64.ofDecimal 2 1000 →
      final.System.sub initial.System = Float64.ofDecimal 1 1000 →
      CalculateCPUUsage initial final { wall := w, mono := t }
        { wall := w2, mono := t + 10000000 } = Float64.ofInt 30) := by
  refine ⟨?_, ?_, ?_, ?_⟩
  · intro initial final start now
    rfl
  · intro start now
    constructor
    · intro h
      by_contra hc
      have := Seconds_not_gtZero (now.Sub start) (by omega)
      rw [h] at this
      exact absurd this (by decide)
    · intro h
      exact Seconds_gtZero _ h
  · intro initial final start now hle
    unfold CalculateCPUUsage
    simp only [Seconds_not_gtZero _ hle]
    rfl
  · intro initial final w w2 t hu hs
    unfold CalculateCPUUsage
    simp only [hu, hs, Sub_after w w2 t 10000000 (by norm_num)]
    decide

/-- Witness for `CalculateCPUUsage_spec`: a process that had used no CPU time before the
request and 2 ms of user plus 1 ms of system time after it, over 10 ms, gives `30`; and a
clock that did not advance gives `0`. -/
theorem CalculateCPUUsage_spec_witness :
    CalculateCPUUsage { User := Float64.ofInt 0, System := Float64.ofInt 0 }
        { User := Float64.ofDecimal 2 1000, System := Float64.ofDecimal 1 1000 }
        { wall := 0, mono := 5000 } { wall := 10000000, mono := 5000 + 10000000 }
      = Float64.ofInt 30
    ∧ CalculateCPUUsage { User := Float64.ofInt 0, System := Float64.ofInt 0 }
        { User := Float64.ofDecimal 2 1000, System := Float64.ofDecimal 1 1000 }
        { wall := 0, mono := 5000 } { wall := 0, mono := 5000 }
      = Float64.ofInt 0 :=
  ⟨CalculateCPUUsage_spec.2.2.2 { User := Float64.ofInt 0, System := Float64.ofInt 0 }
      { User := Float64.ofDecimal 2 1000, System := Float64.ofDecimal 1 1000 } 0 10000000 5000
      (by decide) (by decide),
   CalculateCPUUsage_spec.2.2.1 { User := Float64.ofInt 0, System := Float64.ofInt 0 }
      { User := Float64.ofDecimal 2 1000, System := Float64.ofDecimal 1 1000 }
      { wall := 0, mono := 5000 } { wall := 0, mono := 5000 } (by decide)⟩

/-- C6, as stated, fails: with `2^63` bytes resident after and `0` before, `after < before`
is false, yet the recorded delta is negative (`-2^43` MB) and differs from
`(after - before) / (1024*1024)`. It also differs, by rounding, for a growth of `2^53 + 1`
bytes, which is recorded as `2^33` MB. -/
theorem MemoryDelta_wraps_at_two_pow_63 :
    MemoryDelta { RSS := 0 } { RSS := 2 ^ 63 } < 0
    ∧ ¬ ((2 ^ 63 : Nat) < 0)
    ∧ MemoryDelta { RSS := 0 } { RSS := 2 ^ 63 } ≠ (((2 ^ 63 : Nat) : ℚ) - ((0 : Nat) : ℚ)) / (1024 * 1024)
    ∧ ¬ (MemoryDelta { RSS := 0 } { RSS := 2 ^ 63 } < 0 ↔ (2 ^ 63 : Nat) < 0)
    ∧ MemoryDelta { RSS := 0 } { RSS := 2 ^ 53 + 1 }
        ≠ (((2 ^ 53 + 1 : Nat) : ℚ) - ((0 : Nat) : ℚ)) / (1024 * 1024) := by
  have h1 : memoryUsage { RSS := 0 } { RSS := 2 ^ 63 } = -(2 ^ 63) := by decide
  have h2 : float64OfInt64 (-(2 ^ 63)) = -(2 ^ 63) := by decide
  have h3 : MemoryDelta { RSS := 0 } { RSS := 2 ^ 63 } = -(2 ^ 43) := by
    unfold MemoryDelta
    rw [h1, h2]
    norm_num
  have h4 : memoryUsage { RSS := 0 } { RSS := 2 ^ 53 + 1 } = 2 ^ 53 + 1 := by decide
  have h5 : float64OfInt64 (2 ^ 53 + 1) = 2 ^ 53 := by decide
  have h6 : MemoryDelta { RSS := 0 } { RSS := 2 ^ 53 + 1 } = 2 ^ 33 := by
    unfold MemoryDelta
    rw [h4, h5]
    norm_num
  rw [h3, h6]
  norm_num

/-- C6, amended. Whenever the true difference `after - before` fits in an `int64`, the
recorded memory delta is the binary64 rounding of `after - before` divided by `1024*1024`;
it is negative exactly when `after < before`, it is `0` when the RSS is unchanged, and it
equals `(after - before) / (1024*1024)` exactly when the difference has magnitude at most
`2^53`. -/
theorem MemoryDelta_spec (initialMem finalMem : MemoryInfoStat)
    (hlo : -(2 ^ 63) ≤ (finalMem.RSS : Int) - (initialMem.RSS : Int))
    (hhi : (finalMem.RSS : Int) - (initialMem.RSS : Int) < 2 ^ 63) :
    MemoryDelta initialMem finalMem =
        (float64OfInt64 ((finalMem.RSS : Int) - (initialMem.RSS : Int)) : ℚ) / (1024 * 1024)
    ∧ (MemoryDelta initialMem finalMem < 0 ↔ finalMem.RSS < initialMem.RSS)
    ∧ (finalMem.RSS = initialMem.RSS → MemoryDelta initialMem finalMem = 0)
    ∧ (((finalMem.RSS : Int) - (initialMem.RSS : Int)).natAbs ≤ 2 ^ 53 →
        MemoryDelta initialMem finalMem
          = ((finalMem.RSS : ℚ) - (initialMem.RSS : ℚ)) / (1024 * 1024)) := by
  have hu := memoryUsage_of_fits initialMem finalMem hlo hhi
  have hdef : MemoryDelta initialMem finalMem =
      (float64OfInt64 ((finalMem.RSS : Int) - (initialMem.RSS : Int)) : ℚ) / (1024 * 1024) := by
    unfold MemoryDelta
    rw [hu]
  refine ⟨hdef, ?_, ?_, ?_⟩
  · rw [hdef]
    have hneg := float64OfInt64_neg_iff ((finalMem.RSS : Int) - (initialMem.RSS : Int))
    constructor
    · intro h
      have h1 : (float64OfInt64 ((finalMem.RSS : Int) - (initialMem.RSS : Int)) : ℚ) < 0 := by
        by_contra hc
        push_neg at hc
        have : (0 : ℚ) ≤ (float64OfInt64 ((finalMem.RSS : Int) - (initialMem.RSS : Int)) : ℚ)
            / (1024 * 1024) := div_nonneg hc (by norm_num)
        linarith
      have h2 : float64OfInt64 ((finalMem.RSS : Int) - (initialMem.RSS : Int)) < 0 := by
        exact_mod_cast h1
      have h3 := hneg.1 h2
      omega
    · intro h
      have h3 : (finalMem.RSS : Int) - (initialMem.RSS : Int) < 0 := by omega
      have h2 := hneg.2 h3
      have h1 : (float64OfInt64 ((finalMem.RSS : Int) - (initialMem.RSS : Int)) : ℚ) < 0 := by
        exact_mod_cast h2
      exact div_neg_of_neg_of_pos h1 (by norm_num)
  · intro heq
    rw [hdef, heq, sub_self, float64OfInt64_zero]
    simp
  · intro hsmall
    rw [hdef, float64OfInt64_exact_le _ hsmall]
    push_cast
    rfl

/-- Witness for `MemoryDelta_spec`: one MiB released (`after < before`) gives `-1`. -/
theorem MemoryDelta_spec_witness :
    MemoryDelta { RSS := 3145728 } { RSS := 2097152 } =
        (float64OfInt64 (((2097152 : Nat) : Int) - ((3145728 : Nat) : Int)) : ℚ) / (1024 * 1024)
    ∧ (MemoryDelta { RSS := 3145728 } { RSS := 2097152 } < 0 ↔ 2097152 < 3145728)
    ∧ ((2097152 : Nat) = 3145728 → MemoryDelta { RSS := 3145728 } { RSS := 2097152 } = 0)
    ∧ ((((2097152 : Nat) : Int) - ((3145728 : Nat) : Int)).natAbs ≤ 2 ^ 53 →
        MemoryDelta { RSS := 3145728 } { RSS := 2097152 }
          = (((2097152 : Nat) : ℚ) - ((3145728 : Nat) : ℚ)) / (1024 * 1024)) :=
  MemoryDelta_spec { RSS := 3145728 } { RSS := 2097152 } (by decide) (by decide)

/-! ## Dispatch lemmas -/

theorem runHandlers_frame (hs : List HandlerFunc) : ∀ (c : Context),
    (runHandlers hs c).1.Request = c.Request ∧ (runHandlers hs c).1.handlers = c.handlers := by
  induction hs with
  | nil => intro c; simp [runHandlers]
  | cons h hs ih =>
    intro c
    simp only [runHandlers]
    cases hp : (h c.Request c.Writer).panic with
    | some v => simp
    | none =>
      simp only
      have := ih { c with Writer := (h c.Request c.Writer).Writer, index := c.index + 1 }
      simpa using this

theorem runHandlers_index (hs : List HandlerFunc) : ∀ (c : Context),
    (runHandlers hs c).2 = none → (runHandlers hs c).1.index = c.index + hs.length := by
  induction hs with
  | nil => intro c _; simp [runHandlers]
  | cons h hs ih =>
    intro c
    simp only [runHandlers]
    cases hp : (h c.Request c.Writer).panic with
    | some v => simp
    | none =>
      simp only
      intro hnone
      have := ih { c with Writer := (h c.Request c.Writer).Writer, index := c.index + 1 } hnone
      rw [this]
      simp only [List.length_cons]
      push_cast
      ring

theorem runHandlers_congr (hs : List HandlerFunc) : ∀ (c d : Context),
    c.Request = d.Request → c.Writer = d.Writer →
    (runHandlers hs c).1.Writer = (runHandlers hs d).1.Writer
      ∧ (runHandlers hs c).2 = (runHandlers hs d).2 := by
  induction hs with
  | nil => intro c d _ hw; simp [runHandlers, hw]
  | cons h hs ih =>
    intro c d hr hw
    simp only [runHandlers, hr, hw]
    cases hp : (h d.Request d.Writer).panic with
    | some v => simp
    | none =>
      simp only
      exact ih _ _ rfl rfl

theorem Next_at_zero (req : Request) (w : ResponseWriter) (hs : List HandlerFunc) :
    Context.Next { Request := req, Writer := w, handlers := hs, index := 0 }
      = runHandlers hs { Request := req, Writer := w, handlers := hs, index := 1 } := by
  simp [Context.Next, Context.pending]

theorem pending_after_Next (req : Request) (w : ResponseWriter) (hs : List HandlerFunc)
    (hnone : (runHandlers hs { Request := req, Writer := w, handlers := hs, index := 1 }).2 = none) :
    Context.pending
      { (runHandlers hs { Request := req, Writer := w, handlers := hs, index := 1 }).1 with
        index := (runHandlers hs { Request := req, Writer := w, handlers := hs, index := 1 }).1.index + 1 }
      = [] := by
  have hidx := runHandlers_index hs _ hnone
  have hfr := (runHandlers_frame hs { Request := req, Writer := w, handlers := hs, index := 1 }).2
  simp only [Context.pending, hidx, hfr]
  apply List.drop_eq_nil_of_le
  omega

theorem tracker_ctx (env : Env) (sdk : GinSDK) (ctx : Context) :
    (GinTrackerMiddleware env sdk ctx).2 = ctx.Next
      ∨ (GinTrackerMiddleware env sdk ctx).2 = (ctx, none) := by
  unfold GinTrackerMiddleware
  rcases hN : ctx.Next with ⟨c2, p⟩
  cases env.newProcess <;> cases env.initialTimes <;> cases env.initialMem <;>
    cases env.finalTimes <;> cases env.finalMem <;> cases p <;> simp

theorem ServeHTTP_eq (env : Env) (sdk : GinSDK) (req : Request) (hs : List HandlerFunc) :
    (ServeHTTP env sdk req hs).1
        = (GinTrackerMiddleware env sdk
            { Request := req, Writer := { status := 200, body := "" }, handlers := hs, index := 0 }).1
    ∧ (ServeHTTP env sdk req hs).2.1.Writer = (serveWithoutTracker req hs).1.Writer
    ∧ (ServeHTTP env sdk req hs).2.2 = (serveWithoutTracker req hs).2 := by
  have hc := runHandlers_congr hs
    { Request := req, Writer := { status := 200, body := "" }, handlers := hs, index := 1 }
    { Request := req, Writer := { status := 200, body := "" }, handlers := hs, index := 0 } rfl rfl
  have hpend := pending_after_Next req { status := 200, body := "" } hs
  have hT := tracker_ctx env sdk
    { Request := req, Writer := { status := 200, body := "" }, handlers := hs, index := 0 }
  unfold serveWithoutTracker
  rw [← hc.1, ← hc.2]
  unfold ServeHTTP
  simp only [Int.reduceNeg, neg_add_cancel]
  rw [Next_at_zero] at hT
  generalize GinTrackerMiddleware env sdk
    { Request := req, Writer := { status := 200, body := "" }, handlers := hs, index := 0 } = T at *
  generalize hR : runHandlers hs
    { Request := req, Writer := { status := 200, body := "" }, handlers := hs, index := 1 } = R at *
  obtain ⟨S, C, p⟩ := T
  obtain ⟨RC, Rp⟩ := R
  rcases hT with hT | hT
  · simp only [Prod.mk.injEq] at hT
    obtain ⟨h1, h2⟩ := hT
    subst h1
    subst h2
    cases p with
    | some v => simp
    | none =>
      simp only at hpend
      simp [hpend, runHandlers]
  · simp only [Prod.mk.injEq] at hT
    obtain ⟨h1, h2⟩ := hT
    subst h1
    subst h2
    simp [Context.pending, hR]

/-! ## What the tracker hands to the logger and the store -/

theorem telemetryRecords_append (a b : List LogEntry) :
    telemetryRecords (a ++ b) = telemetryRecords a ++ telemetryRecords b := by
  induction a with
  | nil => simp [telemetryRecords]
  | cons e a ih =>
    cases e <;> simp [telemetryRecords, ih]

theorem poolGet_frame (sdk : GinSDK) :
    sdk.poolGet.2.Logger = sdk.Logger ∧ sdk.poolGet.2.dbExecs = sdk.dbExecs
      ∧ sdk.poolGet.2.dbRows = sdk.dbRows := by
  unfold GinSDK.poolGet
  cases sdk.pool <;> simp

theorem tracker_silent_of_samplingFails (env : Env) (sdk : GinSDK) (ctx : Context)
    (hfail : env.samplingFails = true) :
    telemetryRecords (GinTrackerMiddleware env sdk ctx).1.Logger = telemetryRecords sdk.Logger
    ∧ (GinTrackerMiddleware env sdk ctx).1.dbExecs = sdk.dbExecs
    ∧ (GinTrackerMiddleware env sdk ctx).1.dbRows = sdk.dbRows := by
  obtain ⟨hL, hE, hR⟩ := poolGet_frame sdk
  unfold Env.samplingFails at hfail
  unfold GinTrackerMiddleware
  rcases hN : ctx.Next with ⟨c2, p⟩
  cases hnp : env.newProcess <;> cases hit : env.initialTimes <;> cases him : env.initialMem <;>
    cases hft : env.finalTimes <;> cases hfm : env.finalMem <;> cases p <;>
    simp [hnp, hit, him, hft, hfm] at hfail <;>
    simp [GinSDK.Errorf, GinSDK.poolPut, telemetryRecords_append, telemetryRecords, hL, hE, hR]

theorem Next_frame (ctx : Context) :
    ctx.Next.1.Request = ctx.Request ∧ ctx.Next.1.handlers = ctx.handlers := by
  unfold Context.Next
  exact runHandlers_frame _ _

/-! ## C1, C4, C8, C10: the tracker -/

/-- C1. If one of the sampling calls of a request fails (process handle, CPU times or
memory info, before or after the handlers), the request adds no telemetry record to the
logger, issues no insert and stores no row, and the downstream handlers are still run:
the response and the panic state are those of the chain without the tracker. -/
theorem ServeHTTP_samplingFails (env : Env) (sdk : GinSDK) (req : Request)
    (hs : List HandlerFunc) (hfail : env.samplingFails = true) :
    telemetryRecords (ServeHTTP env sdk req hs).1.Logger = telemetryRecords sdk.Logger
    ∧ (ServeHTTP env sdk req hs).1.dbExecs = sdk.dbExecs
    ∧ (ServeHTTP env sdk req hs).1.dbRows = sdk.dbRows
    ∧ (ServeHTTP env sdk req hs).2.1.Writer = (serveWithoutTracker req hs).1.Writer
    ∧ (ServeHTTP env sdk req hs).2.2 = (serveWithoutTracker req hs).2 := by
  obtain ⟨h1, h2, h3⟩ := ServeHTTP_eq env sdk req hs
  obtain ⟨hL, hE, hR⟩ := tracker_silent_of_samplingFails env sdk
    { Request := req, Writer := { status := 200, body := "" }, handlers := hs, index := 0 } hfail
  rw [h1]
  exact ⟨hL, hE, hR, h2, h3⟩

/-- Witness for `ServeHTTP_samplingFails`: the initial `proc.MemoryInfo()` fails (the
path on which the tracker itself returns without calling `ctx.Next()`), and `GET /ping`
is still answered. -/
theorem ServeHTTP_samplingFails_witness :
    telemetryRecords (ServeHTTP { scenarioEnv none with initialMem := .error "no stats" } NewSDK
        { Method := "GET", Path := "/ping" } [pingHandler]).1.Logger = telemetryRecords NewSDK.Logger
    ∧ (ServeHTTP { scenarioEnv none with initialMem := .error "no stats" } NewSDK
        { Method := "GET", Path := "/ping" } [pingHandler]).1.dbExecs = NewSDK.dbExecs
    ∧ (ServeHTTP { scenarioEnv none with initialMem := .error "no stats" } NewSDK
        { Method := "GET", Path := "/ping" } [pingHandler]).1.dbRows = NewSDK.dbRows
    ∧ (ServeHTTP { scenarioEnv none with initialMem := .error "no stats" } NewSDK
        { Method := "GET", Path := "/ping" } [pingHandler]).2.1.Writer
        = (serveWithoutTracker { Method := "GET", Path := "/ping" } [pingHandler]).1.Writer
    ∧ (ServeHTTP { scenarioEnv none with initialMem := .error "no stats" } NewSDK
        { Method := "GET", Path := "/ping" } [pingHandler]).2.2
        = (serveWithoutTracker { Method := "GET", Path := "/ping" } [pingHandler]).2 :=
  ServeHTTP_samplingFails { scenarioEnv none with initialMem := .error "no stats" } NewSDK
    { Method := "GET", Path := "/ping" } [pingHandler] rfl

/-- C4, as stated, fails: every sample of the scenario succeeds, but the insert is
answered with an error (the store was closed); the record is logged and one insert is
issued, yet no row is added to the store. -/
theorem insert_failure_stores_no_row :
    (scenarioEnv (some "sql: database is closed")).samplingFails = false
    ∧ (ServeHTTP (scenarioEnv (some "sql: database is closed")) NewSDK
        { Method := "GET", Path := "/ping" } [pingHandler]).1.dbExecs.length = 1
    ∧ (ServeHTTP (scenarioEnv (some "sql: database is closed")) NewSDK
        { Method := "GET", Path := "/ping" } [pingHandler]).1.dbRows = []
    ∧ ¬ ((ServeHTTP (scenarioEnv (some "sql: database is closed")) NewSDK
        { Method := "GET", Path := "/ping" } [pingHandler]).1.dbRows.length = 1) := by
  decide

/-- C4, amended. When the five samples of a request succeed (the handlers downstream of
the tracker having returned, so that the final samples are taken), the tracker hands
exactly one telemetry record to the logger and issues exactly one insert for the same
record; the row is stored when the insert succeeds, and when the insert fails the
failure is logged and no row is stored. This holds for any context the tracker is called
with (any position in the chain, any status preset on the writer). The record carries
the status the writer reports once the downstream handlers have returned, and the method
and URL path of the request. -/
theorem tracker_emits_one_record (env : Env) (sdk : GinSDK) (ctx : Context)
    (initialCPUTimes finalCPUTimes : TimesStat) (initialMem finalMem : MemoryInfoStat)
    (hproc : env.newProcess = none)
    (hit : env.initialTimes = .ok initialCPUTimes) (him : env.initialMem = .ok initialMem)
    (hft : env.finalTimes = .ok finalCPUTimes) (hfm : env.finalMem = .ok finalMem)
    (hret : ctx.Next.2 = none) :
    (GinTrackerMiddleware env sdk ctx).1.Logger
        = sdk.Logger
          ++ [LogEntry.withFields (expectedRecord env ctx.Request ctx.Next.1.Writer.status
                initialCPUTimes finalCPUTimes initialMem finalMem) "Request details logged"]
          ++ (match env.insertErr with
              | some err => [LogEntry.errorf ("Failed to insert log into database: " ++ err)]
              | none => [])
    ∧ telemetryRecords (GinTrackerMiddleware env sdk ctx).1.Logger
        = telemetryRecords sdk.Logger ++ [expectedRecord env ctx.Request
            ctx.Next.1.Writer.status initialCPUTimes finalCPUTimes initialMem finalMem]
    ∧ (GinTrackerMiddleware env sdk ctx).1.dbExecs
        = sdk.dbExecs ++ [expectedRecord env ctx.Request
            ctx.Next.1.Writer.status initialCPUTimes finalCPUTimes initialMem finalMem]
    ∧ (GinTrackerMiddleware env sdk ctx).1.dbRows
        = (match env.insertErr with
          | none => sdk.dbRows ++ [expectedRecord env ctx.Request
              ctx.Next.1.Writer.status initialCPUTimes finalCPUTimes initialMem finalMem]
          | some _ => sdk.dbRows)
    ∧ (GinTrackerMiddleware env sdk ctx).2 = (ctx.Next.1, none)
    ∧ (expectedRecord env ctx.Request ctx.Next.1.Writer.status
          initialCPUTimes finalCPUTimes initialMem finalMem).Status
        = (GinTrackerMiddleware env sdk ctx).2.1.Writer.status
    ∧ (expectedRecord env ctx.Request ctx.Next.1.Writer.status
          initialCPUTimes finalCPUTimes initialMem finalMem).RequestMethod = ctx.Request.Method
    ∧ (expectedRecord env ctx.Request ctx.Next.1.Writer.status
          initialCPUTimes finalCPUTimes initialMem finalMem).RequestURL = ctx.Request.Path := by
  obtain ⟨hL, hE, hR⟩ := poolGet_frame sdk
  have hreq := (Next_frame ctx).1
  unfold GinTrackerMiddleware
  rcases hN : ctx.Next with ⟨c2, p⟩
  rw [hN] at hret hreq
  simp only at hret hreq
  subst hret
  cases hins : env.insertErr <;>
    simp [hproc, hit, him, hft, hfm, GinSDK.Errorf, GinSDK.poolPut, telemetryRecords_append,
      telemetryRecords, hL, hE, hR, expectedRecord, hreq]

/-- Witness for `tracker_emits_one_record`: the scenario of the specification, with the
store closed, served by the `GET /ping` handler on a writer preset to 404. One record
`GET /ping 200` is logged, followed by the logged insert failure; the CPU delta of the
record is the `float64` `30.00000000000003` that the samples `1 -> 1.002` and
`0.5 -> 0.501` give over 10 ms, and the memory delta is `0`. -/
theorem tracker_emits_one_record_witness :
    (GinTrackerMiddleware (scenarioEnv (some "sql: database is closed")) NewSDK
        { Request := { Method := "GET", Path := "/ping" },
          Writer := { status := 404, body := "" }, handlers := [pingHandler], index := 0 }).1.Logger
      = [LogEntry.withFields
           { DateTime := "2023-11-14T22:13:20Z", RequestMethod := "GET", RequestURL := "/ping",
             Status := 200, Latency := "10ms",
             CPUDelta := Float64.fin false 8444249301319688 (-48), MemoryDelta := 0 }
           "Request details logged",
         LogEntry.errorf "Failed to insert log into database: sql: database is closed"] := by
  have h := (tracker_emits_one_record (scenarioEnv (some "sql: database is closed")) NewSDK
      { Request := { Method := "GET", Path := "/ping" },
        Writer := { status := 404, body := "" }, handlers := [pingHandler], index := 0 }
      { User := Float64.ofDecimal 1 1, System := Float64.ofDecimal 5 10 }
      { User := Float64.ofDecimal 1002 1000, System := Float64.ofDecimal 501 1000 }
      { RSS := 52428800 } { RSS := 52428800 }
      rfl rfl rfl rfl rfl (by decide)).1
  have hstatus : (Context.Next
      { Request := { Method := "GET", Path := "/ping" },
        Writer := { status := 404, body := "" }, handlers := [pingHandler],
        index := 0 }).1.Writer.status = 200 := by decide
  have hcpu : CalculateCPUUsage { User := Float64.ofDecimal 1 1, System := Float64.ofDecimal 5 10 }
      { User := Float64.ofDecimal 1002 1000, System := Float64.ofDecimal 501 1000 }
      (scenarioEnv (some "sql: database is closed")).start
      (scenarioEnv (some "sql: database is closed")).nowCPU
        = Float64.fin false 8444249301319688 (-48) := by decide
  have hmem : MemoryDelta { RSS := 52428800 } { RSS := 52428800 } = 0 := by
    have h0 : memoryUsage { RSS := 52428800 } { RSS := 52428800 } = 0 := by decide
    unfold MemoryDelta
    rw [h0, float64OfInt64_zero]
    simp
  rw [h, hstatus]
  simp only [expectedRecord, hcpu, hmem]
  rfl

/-- C8. The tracker never writes to the response: whatever the samples and the insert
do, the response writer and the panic state after the request are exactly those the
downstream handlers produce in a chain without the tracker. `GET /ping` is answered
with 200 and its JSON body, and a handler that answers 500 has its status and body
returned as written. -/
theorem ServeHTTP_response_untouched :
    (∀ (env : Env) (sdk : GinSDK) (req : Request) (hs : List HandlerFunc),
      (ServeHTTP env sdk req hs).2.1.Writer = (serveWithoutTracker req hs).1.Writer
      ∧ (ServeHTTP env sdk req hs).2.2 = (serveWithoutTracker req hs).2)
    ∧ (∀ (env : Env) (sdk : GinSDK),
      (ServeHTTP env sdk { Method := "GET", Path := "/ping" } [pingHandler]).2.1.Writer
        = { status := 200, body := "\x7b\"message\":\"pong\"\x7d" })
    ∧ (∀ (env : Env) (sdk : GinSDK),
      (ServeHTTP env sdk { Method := "GET", Path := "/logical-error" }
          [logicalErrorHandler]).2.1.Writer
        = { status := 500, body := "\x7b\"message\":\"logical error\"\x7d" }) := by
  refine ⟨?_, ?_, ?_⟩
  · intro env sdk req hs
    exact (ServeHTTP_eq env sdk req hs).2
  · intro env sdk
    rw [(ServeHTTP_eq env sdk _ _).2.1]
    decide
  · intro env sdk
    rw [(ServeHTTP_eq env sdk _ _).2.1]
    decide

/-- C10. Whatever the pool holds when the tracker takes its record from it, the entries
the request hands to the logger, the inserts it issues, the rows it stores and the
context it leaves are the same: nothing of a record's earlier contents reaches an
emitted record. -/
theorem tracker_pool_independent (env : Env) (sdk : GinSDK) (pool1 pool2 : List requestInfo)
    (ctx : Context) :
    (GinTrackerMiddleware env { sdk with pool := pool1 } ctx).1.Logger
        = (GinTrackerMiddleware env { sdk with pool := pool2 } ctx).1.Logger
    ∧ (GinTrackerMiddleware env { sdk with pool := pool1 } ctx).1.dbExecs
        = (GinTrackerMiddleware env { sdk with pool := pool2 } ctx).1.dbExecs
    ∧ (GinTrackerMiddleware env { sdk with pool := pool1 } ctx).1.dbRows
        = (GinTrackerMiddleware env { sdk with pool := pool2 } ctx).1.dbRows
    ∧ (GinTrackerMiddleware env { sdk with pool := pool1 } ctx).2
        = (GinTrackerMiddleware env { sdk with pool := pool2 } ctx).2 := by
  unfold GinTrackerMiddleware
  rcases hN : ctx.Next with ⟨c2, p⟩
  cases pool1 <;> cases pool2 <;>
    cases env.newProcess <;> cases env.initialTimes <;> cases env.initialMem <;>
    cases env.finalTimes <;> cases env.finalMem <;> cases p <;> cases env.insertErr <;>
    simp [GinSDK.poolGet, GinSDK.Errorf, GinSDK.poolPut]

/-- On the path where the initial `proc.MemoryInfo()` fails the tracker itself returns
without calling `ctx.Next()`: it hands back the context it was given, and the handlers
are run by the dispatch loop of `ServeHTTP` after the tracker has returned. -/
theorem tracker_initialMem_failure (env : Env) (sdk : GinSDK) (ctx : Context)
    (initialCPUTimes : TimesStat) (err : GoError)
    (hproc : env.newProcess = none) (hit : env.initialTimes = .ok initialCPUTimes)
    (him : env.initialMem = .error err) :
    (GinTrackerMiddleware env sdk ctx).2 = (ctx, none) := by
  unfold GinTrackerMiddleware
  simp [hproc, hit, him]

/-! ## C2, C3: shutdown -/

theorem Close_of_open (sdk : GinSDK) (hopen : sdk.shutdownChClosed = false) :
    sdk.Close = Outcome.returned
      { sdk with shutdownChClosed := true, flushes := sdk.flushes + 1,
                 logFileCloses := sdk.logFileCloses + 1, dbCloses := sdk.dbCloses + 1,
                 ops := sdk.ops ++ [Op.closeShutdownCh, Op.bufWriterFlush, Op.logFileClose,
                   Op.dbClose] } := by
  simp [GinSDK.Close, closeShutdownCh, hopen, Outcome.andThen, bufWriterFlush, logFileClose,
    dbClose]

theorem Close_of_closed (sdk : GinSDK) (hclosed : sdk.shutdownChClosed = true) :
    sdk.Close = Outcome.panicked sdk "close of closed channel" := by
  simp [GinSDK.Close, closeShutdownCh, hclosed, Outcome.andThen]

theorem onSignal_of_closed (sdk : GinSDK) (hclosed : sdk.shutdownChClosed = true) :
    sdk.SetupCleanup_onSignal
      = Outcome.panicked (sdk.Info "Shutdown signal received, cleaning up...")
          "close of closed channel" := by
  simp [GinSDK.SetupCleanup_onSignal, closeShutdownCh, hclosed, Outcome.andThen, GinSDK.Info]

/-- C2, as stated, fails: the second of two successive `Close` calls on a new SDK panics
with `close of closed channel`. -/
theorem second_Close_panics :
    (NewSDK.Close).andThen GinSDK.Close
      = Outcome.panicked (NewSDK.Close).sdk "close of closed channel" := by
  decide

/-- C2, amended. A first `Close` on an SDK whose shutdown channel is open returns, having
closed the channel and flushed, closed the log file and closed the store once each.
Shutdown is not idempotent: a second `Close`, and likewise the signal handler run after
`Close`, panics on closing the closed channel; as the panic comes first, the second
trigger performs no flush and closes neither log file nor store again. -/
theorem Close_then_second_trigger (sdk : GinSDK) (hopen : sdk.shutdownChClosed = false) :
    ∃ s : GinSDK, sdk.Close = Outcome.returned s
      ∧ s.shutdownChClosed = true
      ∧ s.flushes = sdk.flushes + 1
      ∧ s.logFileCloses = sdk.logFileCloses + 1
      ∧ s.dbCloses = sdk.dbCloses + 1
      ∧ s.Close = Outcome.panicked s "close of closed channel"
      ∧ s.SetupCleanup_onSignal
          = Outcome.panicked (s.Info "Shutdown signal received, cleaning up...")
              "close of closed channel"
      ∧ (s.Info "Shutdown signal received, cleaning up...").logFileCloses = sdk.logFileCloses + 1
      ∧ (s.Info "Shutdown signal received, cleaning up...").dbCloses = sdk.dbCloses + 1 := by
  refine ⟨_, Close_of_open sdk hopen, rfl, rfl, rfl, rfl, ?_, ?_, rfl, rfl⟩
  · exact Close_of_closed _ rfl
  · exact onSignal_of_closed _ rfl

/-- Witness for `Close_then_second_trigger` on a new SDK. -/
theorem Close_then_second_trigger_witness :
    ∃ s : GinSDK, NewSDK.Close = Outcome.returned s
      ∧ s.shutdownChClosed = true
      ∧ s.flushes = NewSDK.flushes + 1
      ∧ s.logFileCloses = NewSDK.logFileCloses + 1
      ∧ s.dbCloses = NewSDK.dbCloses + 1
      ∧ s.Close = Outcome.panicked s "close of closed channel"
      ∧ s.SetupCleanup_onSignal
          = Outcome.panicked (s.Info "Shutdown signal received, cleaning up...")
              "close of closed channel"
      ∧ (s.Info "Shutdown signal received, cleaning up...").logFileCloses
          = NewSDK.logFileCloses + 1
      ∧ (s.Info "Shutdown signal received, cleaning up...").dbCloses = NewSDK.dbCloses + 1 :=
  Close_then_second_trigger NewSDK rfl

/-- C3 at the failing input. The signal handler performs the drain sequence in order
(and then exits), but `Close` on a new SDK performs only close-channel, flush, close log
file, close store: it never waits for the flush task, which is still marked running when
the log file is closed. -/
theorem Close_skips_wait :
    (NewSDK.SetupCleanup_onSignal).sdk.ops = drainSequence ++ [Op.osExit]
    ∧ (NewSDK.Close).sdk.ops
        = [Op.closeShutdownCh, Op.bufWriterFlush, Op.logFileClose, Op.dbClose]
    ∧ Op.wgWait ∉ (NewSDK.Close).sdk.ops
    ∧ (NewSDK.Close).sdk.ops ≠ drainSequence
    ∧ (NewSDK.Close).sdk.logFileCloses = 1
    ∧ (NewSDK.Close).sdk.flushTaskRunning = true
    ∧ (NewSDK.SetupCleanup_onSignal).sdk.flushTaskRunning = false := by
  decide

/-! ## C7: the registry loops -/

theorem leadingSuccesses_le (call : MonitoringService → Option GoError) :
    ∀ (l : List MonitoringService), leadingSuccesses call l ≤ l.length := by
  intro l
  induction l with
  | nil => simp [leadingSuccesses]
  | cons s rest ih =>
    simp only [leadingSuccesses, List.length_cons]
    cases call s with
    | some e => simp
    | none => simp; exact ih

theorem rangeServices_calls (call : MonitoringService → Option GoError) :
    ∀ (l : List MonitoringService) (i : Nat),
      (rangeServices call l i).1
        = List.range' i (min l.length (leadingSuccesses call l + 1)) := by
  intro l
  induction l with
  | nil => intro i; simp [rangeServices, leadingSuccesses]
  | cons s rest ih =>
    intro i
    simp only [rangeServices, leadingSuccesses, List.length_cons]
    cases hc : call s with
    | some e => simp [List.range']
    | none =>
      simp only
      rw [ih (i + 1)]
      have : min (rest.length + 1) (leadingSuccesses call rest + 1 + 1)
          = min rest.length (leadingSuccesses call rest + 1) + 1 := by omega
      rw [this, List.range'_succ]

theorem rangeServices_error (call : MonitoringService → Option GoError) :
    ∀ (l : List MonitoringService) (i : Nat),
      (rangeServices call l i).2 = firstError call l := by
  intro l
  induction l with
  | nil => intro i; simp [rangeServices, firstError]
  | cons s rest ih =>
    intro i
    simp only [rangeServices, firstError]
    cases hc : call s with
    | some e => simp
    | none => simp only; exact ih (i + 1)

/-- C7, as stated, fails: with a service whose `Track` fails registered before a healthy
one, `TrackEvent` calls `Track` on the first service only and returns its error; the
service registered after it is never called. -/
theorem TrackEvent_stops_at_failure :
    (ServiceRegistry.TrackEvent { Services := [failingTracker, healthyService] }
        "QueryExecution" []).1 = [0]
    ∧ 1 ∉ (ServiceRegistry.TrackEvent { Services := [failingTracker, healthyService] }
        "QueryExecution" []).1
    ∧ (ServiceRegistry.TrackEvent { Services := [failingTracker, healthyService] }
        "QueryExecution" []).2 = some "track failed" := by
  decide

theorem leadingSuccesses_le_of_failure (call : MonitoringService → Option GoError) :
    ∀ (l : List MonitoringService) (j : Nat) (service : MonitoringService) (err : GoError),
      l.get? j = some service → call service = some err → leadingSuccesses call l ≤ j := by
  intro l
  induction l with
  | nil => intro j service err h; simp at h
  | cons s rest ih =>
    intro j service err hget hfail
    cases j with
    | zero =>
      simp only [List.get?_cons_zero, Option.some.injEq] at hget
      subst hget
      simp [leadingSuccesses, hfail]
    | succ j =>
      simp only [List.get?_cons_succ] at hget
      have := ih j service err hget hfail
      simp only [leadingSuccesses]
      cases call s with
      | some e => simp
      | none => simp only; omega

/-- C7, amended. `TrackEvent` calls `Track` on the services in registration order and
stops at the first failure, returning that error, exactly as `Initialize` does with
`Register` and `StartMonitoring` with `Monitor`: the services called are the leading ones
whose call succeeds plus the first failing one, and no service registered after a failing
one is called. -/
theorem TrackEvent_calls (sr : ServiceRegistry) (event : String) (data : EventData) :
    (sr.TrackEvent event data).1
        = List.range (min sr.Services.length
            (leadingSuccesses (fun service => service.Track event data) sr.Services + 1))
    ∧ (sr.TrackEvent event data).2
        = firstError (fun service => service.Track event data) sr.Services
    ∧ (∀ (j i : Nat) (service : MonitoringService) (err : GoError),
        sr.Services.get? j = some service → service.Track event data = some err → j < i →
        i ∉ (sr.TrackEvent event data).1)
    ∧ (sr.Initialize).1
        = List.range (min sr.Services.length
            (leadingSuccesses (fun service => service.Register) sr.Services + 1))
    ∧ (sr.StartMonitoring).1
        = List.range (min sr.Services.length
            (leadingSuccesses (fun service => service.Monitor) sr.Services + 1)) := by
  have hcalls : (sr.TrackEvent event data).1
      = List.range (min sr.Services.length
          (leadingSuccesses (fun service => service.Track event data) sr.Services + 1)) := by
    rw [ServiceRegistry.TrackEvent, rangeServices_calls, List.range_eq_range']
  refine ⟨hcalls, ?_, ?_, ?_, ?_⟩
  · rw [ServiceRegistry.TrackEvent, rangeServices_error]
  · intro j i service err hget hfail hlt hmem
    have hle := leadingSuccesses_le_of_failure (fun service => service.Track event data)
      sr.Services j service err hget hfail
    rw [hcalls, List.mem_range] at hmem
    omega
  · rw [ServiceRegistry.Initialize, rangeServices_calls, List.range_eq_range']
  · rw [ServiceRegistry.StartMonitoring, rangeServices_calls, List.range_eq_range']

/-- Witness for `TrackEvent_calls`: three healthy services around a failing one at
position 1; positions 0 and 1 are called, positions 2 and 3 are not. -/
theorem TrackEvent_calls_witness :
    (ServiceRegistry.TrackEvent
        { Services := [healthyService, failingTracker, healthyService, healthyService] }
        "QueryExecution" []).1 = [0, 1]
    ∧ 2 ∉ (ServiceRegistry.TrackEvent
        { Services := [healthyService, failingTracker, healthyService, healthyService] }
        "QueryExecution" []).1 := by
  have h := TrackEvent_calls
    { Services := [healthyService, failingTracker, healthyService, healthyService] }
    "QueryExecution" []
  refine ⟨?_, ?_⟩
  · rw [h.1]
    decide
  · exact h.2.2.1 1 2 failingTracker "track failed" rfl rfl (by decide)

/-! ## C9: query traces -/

theorem Sub_nonneg_of_le (t u : Time) (h : u.mono ≤ t.mono) : 0 ≤ t.Sub u := by
  have h1 : (0 : Int) ≤ (t.mono : Int) - (u.mono : Int) := by omega
  unfold Time.Sub maxDuration minDuration
  simp only
  split_ifs <;> omega

theorem Sub_exact_of_fits (t u : Time) (h : u.mono ≤ t.mono) (hfit : t.mono < 2 ^ 63) :
    t.Sub u = (t.mono : Int) - (u.mono : Int) := by
  have h1 : (0 : Int) ≤ (t.mono : Int) - (u.mono : Int) := by omega
  have h2 : (t.mono : Int) < 2 ^ 63 := by exact_mod_cast hfit
  have h3 : (0 : Int) ≤ (u.mono : Int) := Int.natCast_nonneg _
  unfold Time.Sub maxDuration minDuration
  simp only
  rw [if_neg (by omega), if_neg (by omega)]

theorem Query_trace {ρ : Type} (env : QueryEnv ρ) (query : String) :
    (PostgresMonitor.Query env query).2.StartTime = env.startNow
    ∧ (PostgresMonitor.Query env query).2.EndTime = env.endNow
    ∧ (PostgresMonitor.Query env query).2.Duration = env.endNow.Sub env.startNow
    ∧ (PostgresMonitor.Query env query).2.Error
        = (match env.result with | .error err => err | .ok _ => "") := by
  unfold PostgresMonitor.Query
  cases env.result <;> simp

theorem Exec_trace {ρ : Type} (env : QueryEnv ρ) (query : String) :
    (PostgresMonitor.Exec env query).2.StartTime = env.startNow
    ∧ (PostgresMonitor.Exec env query).2.EndTime = env.endNow
    ∧ (PostgresMonitor.Exec env query).2.Duration = env.endNow.Sub env.startNow
    ∧ (PostgresMonitor.Exec env query).2.Error
        = (match env.result with | .error err => err | .ok _ => "") := by
  unfold PostgresMonitor.Exec
  cases env.result <;> simp

/-- C9, as stated, fails: a database call that fails with an error whose message is
empty yields a trace whose `Error` field is empty, for `Query` and for `Exec` alike. -/
theorem failed_call_with_empty_Error :
    emptyMessageEnv.result = .error ""
    ∧ (PostgresMonitor.Query emptyMessageEnv "SELECT 1").2.Error = ""
    ∧ (PostgresMonitor.Exec emptyMessageEnv "DELETE FROM t").2.Error = ""
    ∧ ¬ ((PostgresMonitor.Query emptyMessageEnv "SELECT 1").2.Error ≠ ""
          ↔ ∃ err, emptyMessageEnv.result = .error err) := by
  refine ⟨rfl, rfl, rfl, ?_⟩
  intro h
  exact h.2 ⟨"", rfl⟩ rfl

/-- C9, amended. Every trace returned by `Query` or `Exec` has `Duration` equal to
`EndTime.Sub(StartTime)`, which is non-negative and is the exact difference of the two
monotonic readings when these fit in an `int64`; its `Error` field is the message of the
error the database call returned, and is empty when the call succeeded. So a non-empty
`Error` implies that the call failed, and a failed call has a non-empty `Error` exactly
when its error message is non-empty. -/
theorem trace_invariant {ρ : Type} (env : QueryEnv ρ) (query : String) (t : DBQueryTrace)
    (ht : t = (PostgresMonitor.Query env query).2 ∨ t = (PostgresMonitor.Exec env query).2) :
    t.Duration = t.EndTime.Sub t.StartTime
    ∧ 0 ≤ t.Duration
    ∧ (t.EndTime.mono < 2 ^ 63 → t.Duration = (t.EndTime.mono : Int) - (t.StartTime.mono : Int))
    ∧ t.Error = (match env.result with | .error err => err | .ok _ => "")
    ∧ (t.Error ≠ "" → ∃ err, env.result = .error err)
    ∧ (∀ err, env.result = .error err → (t.Error ≠ "" ↔ err ≠ "")) := by
  have hshape : t.StartTime = env.startNow ∧ t.EndTime = env.endNow
      ∧ t.Duration = env.endNow.Sub env.startNow
      ∧ t.Error = (match env.result with | .error err => err | .ok _ => "") := by
    rcases ht with ht | ht
    · rw [ht]
      exact Query_trace env query
    · rw [ht]
      exact Exec_trace env query
  obtain ⟨hs, he, hd, herr⟩ := hshape
  have hmono : env.startNow.mono ≤ env.endNow.mono := by
    simp [QueryEnv.endNow]
  refine ⟨?_, ?_, ?_, herr, ?_, ?_⟩
  · rw [hd, hs, he]
  · rw [hd]
    exact Sub_nonneg_of_le _ _ hmono
  · intro hfit
    rw [hd, hs, he]
    rw [he] at hfit
    exact Sub_exact_of_fits _ _ hmono hfit
  · intro hne
    rw [herr] at hne
    cases hr : env.result with
    | error err => exact ⟨err, rfl⟩
    | ok r =>
      rw [hr] at hne
      exact absurd rfl hne
  · intro err hr
    rw [herr, hr]

/-- Witness for `trace_invariant`: a successful query that took 2.5 ms. -/
theorem trace_invariant_witness :
    (PostgresMonitor.Query successEnv "SELECT 1").2.Duration = 2500000
    ∧ (PostgresMonitor.Query successEnv "SELECT 1").2.Error = "" := by
  have h := trace_invariant successEnv "SELECT 1" (PostgresMonitor.Query successEnv "SELECT 1").2
    (Or.inl rfl)
  refine ⟨?_, ?_⟩
  · rw [h.2.2.1 (by decide)]
    decide
  · rw [h.2.2.2.1]
    rfl

end CloudTrace
